/-
Verification of the shareholder-benefit store-map pipeline
(`pdf_parser.py`, `geocoder.py`, `app.py`).

The Python sources are shallowly embedded: pure functions become Lean
functions, the SQLite geocode cache becomes an association list that is
threaded explicitly, network calls become oracle parameters
(`String → Option (ℚ × ℚ)`), and the MD5 digest becomes a digest-function
parameter `h : String → String` (only the digest's functionality and,
where stated, injectivity are used).  Regular-expression operations are
translated into equivalent character-list functions; the comments on each
definition record the regex being modelled and any character-class
reasoning the translation relies on.
-/
import Mathlib

set_option autoImplicit false

/-! ## Python string primitives -/

/-- Model of Python's `\s` class and `str.strip` whitespace, restricted to the
whitespace characters that occur in this development: ASCII whitespace and the
ideographic space U+3000. -/
def isPySpace (c : Char) : Bool :=
  c = ' ' || c = '\t' || c = '\n' || c = '\r' || c = '\x0b' || c = '\x0c' || c = '　'

/-- Python `str.strip()`. -/
def pyStrip (s : String) : String :=
  ⟨((s.toList.dropWhile isPySpace).reverse.dropWhile isPySpace).reverse⟩

/-- Substring test on character lists (used for Python's `in` on `str` and for
regex searches for a literal). -/
def isSubList (needle hay : List Char) : Bool :=
  needle.isPrefixOf hay ||
    match hay with
    | [] => false
    | _ :: rest => isSubList needle rest

/-- Number of non-whitespace characters: `len(re.sub(r"\s", "", text))`. -/
def meaningfulLen (t : String) : Nat :=
  (t.toList.filter (fun c => !isPySpace c)).length

/-! ## geocoder.py: constants and cache -/

/-- Source `NOMINATIM_MAX_WORKERS = 3` (geocoder.py line 38). -/
def NOMINATIM_MAX_WORKERS : Nat := 3

/-- Source `GOOGLE_MAX_WORKERS = 10` (geocoder.py line 39). -/
def GOOGLE_MAX_WORKERS : Nat := 10

/-- Source `NOMINATIM_THREAD_DELAY = 0.4` seconds (geocoder.py line 43). -/
def NOMINATIM_THREAD_DELAY : ℚ := 2 / 5

/-- The SQLite table `geocache` keyed by `key`, modelled as an association
list; `INSERT OR REPLACE` keeps at most one row per key. -/
abbrev Cache := List (String × (ℚ × ℚ))

/-- The digest input `f"{provider}:{address}"` from `_cache_key`. -/
def _key_input (address provider : String) : String :=
  provider ++ (":") ++ address

/-- Source `_cache_key(address, provider) = hashlib.md5(f"{provider}:{address}").hexdigest()`;
the MD5 hexdigest is the digest parameter `h`. -/
def _cache_key (h : String → String) (address provider : String) : String :=
  h (_key_input address provider)

/-- Source `_cache_get`: `SELECT lat, lng FROM geocache WHERE key=?`. -/
def _cache_get (conn : Cache) (key : String) : Option (ℚ × ℚ) :=
  (conn.find? (fun row => row.1 = key)).map (fun row => row.2)

/-- Source `_cache_set`: `INSERT OR REPLACE INTO geocache ...` (the timestamp column
plays no role in any claim and is omitted). -/
def _cache_set (conn : Cache) (key : String) (lat lng : ℚ) : Cache :=
  (key, (lat, lng)) :: conn.filter (fun row => row.1 ≠ key)

/-! ## geocoder.py: single-address resolution -/

/-- Python truthiness of the optional `api_key` string. -/
def pyTruthy (s : Option String) : Bool :=
  match s with
  | none => false
  | some k => k ≠ ("")

/-- Source `_ensure_japan`. -/
def _ensure_japan (address : String) : String :=
  if !isSubList ("日本").toList address.toList && !isSubList ("Japan").toList address.toList then
    address ++ (" 日本")
  else
    address

/-- Source `_nominatim_request`: one request against the free service.  The HTTP call
is the oracle `nsvc`; exception and zero-result paths are `none`.  The
`time.sleep(NOMINATIM_THREAD_DELAY)` on line 91 has no effect on the value. -/
def _nominatim_request (nsvc : String → Option (ℚ × ℚ)) (address : String) :
    Option (ℚ × ℚ) :=
  nsvc (_ensure_japan address)

/-- Source `_google_request`: one request against the paid service (oracle `gsvc`,
taking the address and the api key). -/
def _google_request (gsvc : String → String → Option (ℚ × ℚ))
    (address apiKey : String) : Option (ℚ × ℚ) :=
  gsvc address apiKey

/-- Outcome of `geocode_single`: returned value, cache database afterwards, and
whether a provider request was issued. -/
structure SingleResult where
  result : Option (ℚ × ℚ)
  cache : Cache
  providerCalled : Bool
deriving DecidableEq, Repr

/-- Source `geocode_single` (geocoder.py lines 132-156).  The `lru_cache` decorator is
per-process memoisation of this very function and does not change its value on
any single call; the persistent SQLite cache is the explicit `cache` argument. -/
def geocode_single (h : String → String) (nsvc : String → Option (ℚ × ℚ))
    (gsvc : String → String → Option (ℚ × ℚ)) (address : String)
    (api_key : Option String) (provider : String) (cache : Cache) : SingleResult :=
  if address = ("") then ⟨none, cache, false⟩
  else
    let key := _cache_key h address provider
    match _cache_get cache key with
    | some c => ⟨some c, cache, false⟩
    | none =>
      let result :=
        if provider = ("google") && pyTruthy api_key then
          _google_request gsvc address (api_key.getD (""))
        else
          _nominatim_request nsvc address
      match result with
      | some c => ⟨some c, _cache_set cache key c.1 c.2, true⟩
      | none => ⟨none, cache, true⟩

/-! ## Store records

One record type serves both `pdf_parser.py` (which creates dicts with `name`,
`address`, `company`) and `geocoder.py` / `app.py` (which may add
`source_file`, `lat`, `lng`).  A key that a given dict lacks is `none`; the
`lat`/`lng` pair is a single optional field since the code always writes the
two together.  `extra` stands for any further dict entries; no modelled code
reads or writes it. -/

structure Store where
  name : Option String
  address : Option String
  company : Option String
  source_file : Option String
  latlng : Option (ℚ × ℚ)
  extra : List (String × String)
deriving DecidableEq, Repr

/-! ## geocoder.py: bulk resolution (`geocode_addresses`, lines 159-232) -/

/-- Source `store.get("address", "").strip()`. -/
def storeAddr (s : Store) : String :=
  pyStrip (s.address.getD (""))

/-- The keys of the `unique_addresses` dict in insertion order: every distinct
non-empty stripped address, first occurrence first. -/
def uniqueAddrs (stores : List Store) : List String :=
  stores.foldl
    (fun acc s =>
      let a := storeAddr s
      if a = ("") then acc else if a ∈ acc then acc else acc ++ [a])
    []

/-- Source `s["lat"], s["lng"] = c` for every store of the group of address `a`
(the `unique_addresses[a]` list holds exactly the stores whose stripped
address is `a`). -/
def setGroup (a : String) (c : ℚ × ℚ) (stores : List Store) : List Store :=
  stores.map (fun s => if storeAddr s = a then { s with latlng := some c } else s)

/-- Source `_fetch_one` (geocoder.py lines 210-215): provider dispatch for one
address. -/
def _fetch_one (nsvc : String → Option (ℚ × ℚ))
    (gsvc : String → String → Option (ℚ × ℚ)) (api_key : Option String)
    (provider : String) (address : String) : Option (ℚ × ℚ) :=
  if provider = ("google") && pyTruthy api_key then
    _google_request gsvc address (api_key.getD (""))
  else
    _nominatim_request nsvc address

/-- Step 1 of `geocode_addresses` (lines 193-201): for every unique address
with a cache hit, assign the cached coordinates to its whole group. -/
def geocodeStep1 (h : String → String) (provider : String) (cache : Cache)
    (stores : List Store) : List Store :=
  (uniqueAddrs stores).foldl
    (fun st a =>
      match _cache_get cache (_cache_key h a provider) with
      | some c => setGroup a c st
      | none => st)
    stores

/-- The `need_api` list (lines 190-201): unique addresses that missed the
cache, in insertion order. -/
def needApi (h : String → String) (provider : String) (cache : Cache)
    (stores : List Store) : List String :=
  (uniqueAddrs stores).filter
    (fun a => (_cache_get cache (_cache_key h a provider)).isNone)

/-- Result of a bulk run: the store list, the cache database, and the
addresses sent to the provider in completion order. -/
structure BulkResult where
  stores : List Store
  cache : Cache
  calls : List String
deriving Repr

/-- Step 2 of `geocode_addresses` (lines 217-229): the `as_completed` loop.
`order` is the completion order of the submitted futures — an arbitrary
permutation of `need_api`, which models the thread pool's nondeterminism.
Every completed future is processed once: on success the coordinates are
cached and assigned to the address's group. -/
def geocodeStep2 (h : String → String) (nsvc : String → Option (ℚ × ℚ))
    (gsvc : String → String → Option (ℚ × ℚ)) (api_key : Option String)
    (provider : String) (order : List String) (stores : List Store)
    (cache : Cache) : BulkResult :=
  order.foldl
    (fun r a =>
      match _fetch_one nsvc gsvc api_key provider a with
      | some c =>
        ⟨setGroup a c r.stores, _cache_set r.cache (_cache_key h a provider) c.1 c.2,
          r.calls ++ [a]⟩
      | none => ⟨r.stores, r.cache, r.calls ++ [a]⟩)
    ⟨stores, cache, []⟩

/-- Source `geocode_addresses` (geocoder.py lines 159-232), with the future
completion order `order` made explicit. -/
def geocode_addresses (h : String → String) (nsvc : String → Option (ℚ × ℚ))
    (gsvc : String → String → Option (ℚ × ℚ)) (api_key : Option String)
    (provider : String) (cache : Cache) (stores : List Store)
    (order : List String) : BulkResult :=
  geocodeStep2 h nsvc gsvc api_key provider order
    (geocodeStep1 h provider cache stores) cache

/-- Derived per-record semantics of one bulk run: the coordinate a given
address ends up with (cache first, then one provider request). -/
def resolveAddr (h : String → String) (nsvc : String → Option (ℚ × ℚ))
    (gsvc : String → String → Option (ℚ × ℚ)) (api_key : Option String)
    (provider : String) (cache : Cache) (a : String) : Option (ℚ × ℚ) :=
  match _cache_get cache (_cache_key h a provider) with
  | some c => some c
  | none => _fetch_one nsvc gsvc api_key provider a

/-- Derived per-record semantics: what one bulk run does to a single store. -/
def assignCoord (h : String → String) (nsvc : String → Option (ℚ × ℚ))
    (gsvc : String → String → Option (ℚ × ℚ)) (api_key : Option String)
    (provider : String) (cache : Cache) (s : Store) : Store :=
  let a := storeAddr s
  if a = ("") then s
  else
    match resolveAddr h nsvc gsvc api_key provider cache a with
    | some c => { s with latlng := some c }
    | none => s

/-! ## Rate model for the free provider

Each worker thread executes `time.sleep(NOMINATIM_THREAD_DELAY)` immediately
before each request (`_nominatim_request`, line 91), so one worker can issue
at most `⌊t / delay⌋` requests in any closed window of `t` seconds that starts
at a sleep boundary, and the pool of `NOMINATIM_MAX_WORKERS` workers can reach
that bound simultaneously. -/

/-- Requests one worker can issue within `t` seconds. -/
def workerRequestsWithin (delay t : ℚ) : Nat := ⌊t / delay⌋.toNat

/-- Requests the whole pool can issue within `t` seconds. -/
def aggregateRequestsWithin (workers : Nat) (delay t : ℚ) : Nat :=
  workers * workerRequestsWithin delay t

/-! ## pdf_parser.py: character classes of the regular expressions

Python's Unicode classes `\w`, `\d`, `\s` are modelled over the scripts that
occur in this development (ASCII, CJK ideographs, kana, full-width forms);
each definition states the regex construct it translates. -/

/-- CJK unified ideographs `一-鿿` (also covers 丁目番地号の). -/
def isCJK (c : Char) : Bool :=
  0x4e00 ≤ c.toNat && c.toNat ≤ 0x9fff

/-- Full-width digits `０-９`. -/
def isFwDigit (c : Char) : Bool :=
  '０' ≤ c && c ≤ '９'

/-- Kana letters (hiragana, katakana, prolonged-sound mark), all `\w` chars. -/
def isKanaWord (c : Char) : Bool :=
  (0x3041 ≤ c.toNat && c.toNat ≤ 0x3096) ||
  (0x30a1 ≤ c.toNat && c.toNat ≤ 0x30fa) || c.toNat = 0x30fc

/-- Full-width Latin letters, `\w` chars. -/
def isFwLatin (c : Char) : Bool :=
  ('Ａ' ≤ c && c ≤ 'Ｚ') || ('ａ' ≤ c && c ≤ 'ｚ')

/-- Python `\w` (word character), over the modelled scripts. -/
def isWordChar (c : Char) : Bool :=
  c.isAlphanum || c = '_' || isCJK c || isKanaWord c || isFwDigit c || isFwLatin c

/-- Python `\d` (decimal digit), over the modelled scripts. -/
def isReDigit (c : Char) : Bool :=
  c.isDigit || isFwDigit c

/-- The dash glyphs `[-－ー−]` of `ADDRESS_RE`'s main character class. -/
def isClassADash (c : Char) : Bool :=
  c = '-' || c = '－' || c = 'ー' || c = '−'

/-- The main character class of `ADDRESS_RE` (pdf_parser.py line 95):
`[一-鿿\w０-９0-9\s\-－ー−〜～丁目番地号の]`. -/
def isClassA (c : Char) : Bool :=
  isCJK c || isWordChar c || isFwDigit c || c.isDigit || isPySpace c ||
    isClassADash c || c = '〜' || c = '～'

/-- Source `_PREFS` (pdf_parser.py lines 84-89), in the source's alternation order. -/
def _PREFS : List String :=
  [("北海道"), ("青森"), ("岩手"), ("宮城"), ("秋田"), ("山形"), ("福島"),
   ("茨城"), ("栃木"), ("群馬"), ("埼玉"), ("千葉"), ("東京"), ("神奈川"),
   ("新潟"), ("富山"), ("石川"), ("福井"), ("山梨"), ("長野"), ("岐阜"),
   ("静岡"), ("愛知"), ("三重"), ("滋賀"), ("京都"), ("大阪"), ("兵庫"),
   ("奈良"), ("和歌山"), ("鳥取"), ("島根"), ("岡山"), ("広島"), ("山口"),
   ("徳島"), ("香川"), ("愛媛"), ("高知"), ("福岡"), ("佐賀"), ("長崎"),
   ("熊本"), ("大分"), ("宮崎"), ("鹿児島"), ("沖縄")]

/-! ## pdf_parser.py: the regex matchers

`ADDRESS_RE` is
`(?:〒\s*\d{3}[-－]\d{4}\s*)? (pref)(?:都|道|府|県)? [classA]+ (?:num)? (?:bldg)?`.
Two facts about its character classes let the backtracking matcher collapse to
a deterministic one: (1) no prefecture name is a prefix of another, so the
alternation is first-match; (2) every character the optional
`(?:都|道|府|県)?`, numeric-block and building-suffix groups can match is in
`classA`, so after the greedy `[classA]+` takes a maximal run those optional
groups necessarily match empty, and the whole match after the prefecture is
exactly a maximal non-empty `classA` run. -/

/-- First prefecture of `_PREFS` that is a prefix; returns (matched, rest). -/
def matchPref (cs : List Char) : Option (List Char × List Char) :=
  match _PREFS.find? (fun p => p.toList.isPrefixOf cs) with
  | some p => some (p.toList, cs.drop p.toList.length)
  | none => none

/-- Exactly `n` regex digits from the front. -/
def takeDigits : Nat → List Char → Option (List Char × List Char)
  | 0, cs => some ([], cs)
  | _ + 1, [] => none
  | n + 1, c :: cs =>
    if isReDigit c then (takeDigits n cs).map (fun r => (c :: r.1, r.2)) else none

/-- Source `〒\s*\d{3}[-－]\d{4}` — the shared core of `POSTAL_RE` and of
`ADDRESS_RE`'s optional postal-code group. -/
def matchPostalCore (cs : List Char) : Option (List Char × List Char) :=
  match cs with
  | '〒' :: rest =>
    let sp := rest.takeWhile isPySpace
    let r1 := rest.dropWhile isPySpace
    match takeDigits 3 r1 with
    | some (d3, r2) =>
      match r2 with
      | d :: r3 =>
        if d = '-' || d = '－' then
          match takeDigits 4 r3 with
          | some (d4, r4) => some ('〒' :: (sp ++ d3 ++ d :: d4), r4)
          | none => none
        else none
      | [] => none
    | none => none
  | _ => none

/-- Source `ADDRESS_RE`'s postal group including its trailing `\s*`. -/
def matchPostal (cs : List Char) : Option (List Char × List Char) :=
  match matchPostalCore cs with
  | some (m, rest) => some (m ++ rest.takeWhile isPySpace, rest.dropWhile isPySpace)
  | none => none

/-- Source `POSTAL_RE.search` (truthiness only). -/
def postalSearch : List Char → Bool
  | [] => false
  | c :: rest => (matchPostalCore (c :: rest)).isSome || postalSearch rest

/-- The prefecture-anchored tail of `ADDRESS_RE`: prefecture followed by a
maximal non-empty `classA` run (see the analysis above). -/
def matchPrefRun (cs : List Char) : Option (List Char) :=
  match matchPref cs with
  | some (pr, rest) =>
    let run := rest.takeWhile isClassA
    if run.isEmpty then none else some (pr ++ run)
  | none => none

/-- Source `ADDRESS_RE` matched at the front of `cs`; if the optional postal group
matches but no prefecture follows it, the regex backtracks to the empty
postal alternative. -/
def matchAddressAt (cs : List Char) : Option (List Char) :=
  match matchPostal cs with
  | some (po, rest) =>
    match matchPrefRun rest with
    | some m => some (po ++ m)
    | none => matchPrefRun cs
  | none => matchPrefRun cs

/-- Source `ADDRESS_RE.search`: leftmost match, as (start offset, `group(0)`). -/
def addressSearchAux (idx : Nat) : List Char → Option (Nat × List Char)
  | [] => none
  | c :: rest =>
    match matchAddressAt (c :: rest) with
    | some m => some (idx, m)
    | none => addressSearchAux (idx + 1) rest

/-- Source `ADDRESS_RE.search` on a whole line. -/
def addressSearch (cs : List Char) : Option (Nat × List Char) :=
  addressSearchAux 0 cs

/-! ## pdf_parser.py: normalisation and the remaining regexes -/

/-- Adjacent characters grouped by a classification key (used to model
run-replacing `re.sub` and `re.split`). -/
def chunkBy (key : Char → Nat) : List Char → List (List Char)
  | [] => []
  | c :: cs =>
    match chunkBy key cs with
    | [] => [[c]]
    | g :: gs =>
      match g with
      | [] => [c] :: gs
      | d :: _ => if key c = key d then (c :: g) :: gs else [c] :: g :: gs

/-- Source `re.sub` of every maximal run of `p`-characters of length at least
`minRun` by `rep` (e.g. `[ \t]+ → " "`, `\n{3,} → "\n\n"`,
`[\s　]{2,} → " "`). -/
def collapseRuns (p : Char → Bool) (minRun : Nat) (rep : List Char)
    (cs : List Char) : List Char :=
  ((chunkBy (fun c => if p c then 0 else 1) cs).map
    (fun g => if g.any p && minRun ≤ g.length then rep else g)).flatten

/-- The `str.maketrans` table of `_normalize`: ideographic space to space,
full-width digits to ASCII digits. -/
def zenMap (c : Char) : Char :=
  if c = '　' then ' '
  else if isFwDigit c then Char.ofNat (c.toNat - 0xff10 + 0x30)
  else c

/-- Source `_normalize` (pdf_parser.py lines 115-120). -/
def _normalize (text : String) : String :=
  let t1 := text.toList.map zenMap
  let t2 := collapseRuns (fun c => c = ' ' || c = '\t') 1 ([' ']) t1
  let t3 := collapseRuns (fun c => c = '\n') 3 (['\n', '\n']) t2
  pyStrip ⟨t3⟩

/-- Bullet characters of `BULLET_RE` (pdf_parser.py line 105): the listed
symbols, `■-◿`, `①-⑳`, and `\d`. -/
def isBulletChar (c : Char) : Bool :=
  c = '・' || c = '➤' ||
  (0x25a0 ≤ c.toNat && c.toNat ≤ 0x25ff) ||
  (0x2460 ≤ c.toNat && c.toNat ≤ 0x2473) ||
  isReDigit c

/-- The closing class `[\s　.．、）)\]】]` of `BULLET_RE`. -/
def isBulletCloser (c : Char) : Bool :=
  isPySpace c || c = '.' || c = '．' || c = '、' || c = '）' || c = ')' ||
    c = ']' || c = '】'

/-- Source `BULLET_RE.sub("", s)`: the pattern is anchored at the start and its three
parts use pairwise disjoint character classes, so the greedy match is the
maximal space run, then a non-empty maximal bullet run, then a non-empty
maximal closer run; on failure the string is unchanged. -/
def bulletStrip (cs : List Char) : List Char :=
  let s1 := cs.dropWhile isPySpace
  let s2 := s1.dropWhile isBulletChar
  if s2.length < s1.length then
    let s3 := s2.dropWhile isBulletCloser
    if s3.length < s2.length then s3 else cs
  else cs

/-- ASCII lower-casing, for `re.IGNORECASE`. -/
def toLowerAscii (c : Char) : Char :=
  if 'A' ≤ c && c ≤ 'Z' then Char.ofNat (c.toNat + 0x20) else c

/-- Case-insensitive literal search. -/
def containsCI (needle : String) (hay : List Char) : Bool :=
  isSubList (needle.toList.map toLowerAscii) (hay.map toLowerAscii)

/-- A `株式会社` occurrence reachable from the current position without
crossing a newline (regex `.` does not match `\n`). -/
def findKabuNoNewline : List Char → Bool
  | [] => false
  | c :: rest =>
    ("株式会社").toList.isPrefixOf (c :: rest) || (c ≠ '\n' && findKabuNoNewline rest)

/-- The `株式会社.*?株式会社` alternative of `SKIP_RE`. -/
def doubleKabu : List Char → Bool
  | [] => false
  | c :: rest =>
    (("株式会社").toList.isPrefixOf (c :: rest) &&
      findKabuNoNewline ((c :: rest).drop 4)) || doubleKabu rest

/-- Source `SKIP_RE.search` (pdf_parser.py lines 108-112, truthiness only). -/
def skipSearch (name : String) : Bool :=
  let cs := name.toList
  isSubList ("ページ").toList cs || containsCI ("page") cs ||
  isSubList ("年").toList cs || isSubList ("月").toList cs ||
  isSubList ("日").toList cs || containsCI ("copyright") cs ||
  containsCI ("http") cs || containsCI ("www.") cs ||
  isSubList ("@").toList cs || doubleKabu cs ||
  isSubList ("目次").toList cs || containsCI ("contents") cs ||
  isSubList ("はじめに").toList cs || isSubList ("ご注意").toList cs ||
  isSubList ("注意事項").toList cs || isSubList ("お問い合わせ").toList cs ||
  isSubList ("取扱説明").toList cs

/-! ## pdf_parser.py: `_parse_stores` -/

/-- The `add_store` closure of `_parse_stores` (pdf_parser.py lines 129-139). -/
def add_store (company : String) (stores : List Store) (name address : String) :
    List Store :=
  let n1 := pyStrip ⟨bulletStrip name.toList⟩
  let n2 := pyStrip ⟨collapseRuns isPySpace 2 ([' ']) n1.toList⟩
  let a := pyStrip address
  if n2 ≠ ("") ∧ a ≠ ("") ∧ 2 ≤ n2.length ∧ n2.length ≤ 60 ∧ 5 ≤ a.length ∧
      a.length ≤ 100 ∧ skipSearch n2 = false then
    stores ++ [⟨some n2, some a, some company, none, none, []⟩]
  else stores

/-- Character classes of the pattern-1 splitter `re.split(r"\t|　{2,}| {3,}", line)`. -/
def pat1Class (c : Char) : Nat :=
  if c = '\t' then 0 else if c = '　' then 1 else if c = ' ' then 2 else 3

/-- Merge a run of literal characters into the first field. -/
def mergeHead (g : List Char) : List (List Char) → List (List Char)
  | [] => [g]
  | f :: fs => (g ++ f) :: fs

/-- Rebuild the field list from classified runs: each tab is a delimiter, a
run of at least two ideographic spaces is one delimiter, a run of at least
three spaces is one delimiter, anything else is field text. -/
def pat1Join : List (List Char) → List (List Char)
  | [] => [[]]
  | g :: gs =>
    let rest := pat1Join gs
    match g with
    | [] => rest
    | c :: _ =>
      if c = '\t' then List.replicate g.length ([] : List Char) ++ rest
      else if c = '　' then
        if 2 ≤ g.length then ([] : List Char) :: rest else mergeHead g rest
      else if c = ' ' then
        if 3 ≤ g.length then ([] : List Char) :: rest else mergeHead g rest
      else mergeHead g rest

/-- Source `re.split(r"\t|　{2,}| {3,}", line)` (pdf_parser.py line 146). -/
def pat1Split (cs : List Char) : List (List Char) :=
  pat1Join (chunkBy pat1Class cs)

/-- The pattern-1 scan (pdf_parser.py lines 147-152): for the first field pair
whose right member contains an address, add (left member, matched address). -/
def pat1Scan (company : String) (stores : List Store) :
    List (List Char) → List Store
  | [] => stores
  | p0 :: rest =>
    match rest with
    | [] => stores
    | p1 :: _ =>
      match addressSearch p1 with
      | some (_, m) => add_store company stores ⟨p0⟩ ⟨m⟩
      | none => pat1Scan company stores rest

/-- Pattern 1 (pdf_parser.py lines 145-152): the guarded column scan. -/
def pat1Stores (company : String) (stores : List Store) (line : String) :
    List Store :=
  let parts := pat1Split line.toList
  if 2 ≤ parts.length then pat1Scan company stores parts else stores

/-- Pattern 2 (pdf_parser.py lines 154-167): an address inside the line, the
name from the text before it or from the previous line. -/
def pat2Stores (company : String) (prevOpt : Option String) (line : String)
    (st : Nat) (m : List Char) (stores1 : List Store) : List Store :=
  let address : String := ⟨m⟩
  let before0 := pyStrip ⟨line.toList.take st⟩
  let before : String := pyStrip ⟨bulletStrip before0.toList⟩
  if before ≠ ("") ∧ 2 ≤ before.length then
    add_store company stores1 before address
  else
    match prevOpt with
    | some prevRaw =>
      let prev := pyStrip prevRaw
      if prev ≠ ("") ∧ (addressSearch prev.toList).isNone = true ∧
          skipSearch prev = false then
        add_store company stores1 prev address
      else stores1
    | none => stores1

/-- Pattern 3 (pdf_parser.py lines 171-177): a postal-code line whose address
continues on the next line, the name from the line before. -/
def pat3Stores (company : String) (prevOpt : Option String) (line : String)
    (rest : List String) (stores1 : List Store) : List Store :=
  if postalSearch line.toList then
    match rest with
    | next :: _ =>
      match addressSearch (line.toList ++ (pyStrip next).toList) with
      | some (_, m2) =>
        let sname := match prevOpt with | some p => pyStrip p | none => ("")
        add_store company stores1 sname ⟨m2⟩
      | none => stores1
    | [] => stores1
  else stores1

/-- The `while i < len(lines)` loop of `_parse_stores` (lines 141-179).
`prevOpt` carries `lines[i-1]` (raw, stripped at use, like the source); a
line with an address match runs patterns 1 and 2, any other line runs
patterns 1 and 3. -/
def parseLoop (company : String) :
    Option String → List String → List Store → List Store
  | _, [], stores => stores
  | prevOpt, lineRaw :: rest, stores =>
    let line := pyStrip lineRaw
    let stores1 := pat1Stores company stores line
    match addressSearch line.toList with
    | some (st, m) =>
      parseLoop company (some lineRaw) rest
        (pat2Stores company prevOpt line st m stores1)
    | none =>
      parseLoop company (some lineRaw) rest
        (pat3Stores company prevOpt line rest stores1)

/-- Python `text.split("\n")` on characters. -/
def splitOnNl : List Char → List (List Char)
  | [] => [[]]
  | c :: cs =>
    if c = '\n' then [] :: splitOnNl cs
    else
      match splitOnNl cs with
      | [] => [[c]]
      | f :: fs => (c :: f) :: fs

/-- Source `_parse_stores` (pdf_parser.py lines 123-181). -/
def _parse_stores (text : String) (company : String) : List Store :=
  parseLoop company none
    ((splitOnNl (_normalize text).toList).map (fun l => (⟨l⟩ : String))) []

/-! ## pdf_parser.py: deduplication and the extraction pipeline -/

/-- The dedup key `(s.get("company",""), s.get("name",""), s.get("address",""))`. -/
def dedupKey (s : Store) : String × String × String :=
  (s.company.getD (""), s.name.getD (""), s.address.getD (""))

/-- The loop of `_deduplicate` with its `seen` set. -/
def dedupGo (seen : List (String × String × String)) : List Store → List Store
  | [] => []
  | s :: rest =>
    if dedupKey s ∈ seen then dedupGo seen rest
    else s :: dedupGo (dedupKey s :: seen) rest

/-- Source `_deduplicate` (pdf_parser.py lines 184-193). -/
def _deduplicate (stores : List Store) : List Store :=
  dedupGo [] stores

/-- The text-acquisition part of `extract_stores_from_pdf`
(pdf_parser.py lines 227-255): `t` is the `text` variable after the
pdfplumber try/except (an exception leaves it `""`), `ocr` the OCR outcome if
invoked (`none` models a raised exception).  Mirrors the source's control
flow: below the 200-meaningful-character threshold the OCR candidate is
requested and the candidate with more non-whitespace characters is kept; a
whitespace-only final text is the "empty document" `ValueError`. -/
def acquireText (t : String) (ocr : Option String) : Except String String :=
  let m := meaningfulLen t
  if m < 200 then
    match ocr with
    | some t2 =>
      let kept := if m < meaningfulLen t2 then t2 else t
      if pyStrip kept = ("") then Except.error ("empty document")
      else Except.ok kept
    | none =>
      if t = ("") then Except.error ("text extraction and OCR both failed")
      else if pyStrip t = ("") then Except.error ("empty document")
      else Except.ok t
  else
    if pyStrip t = ("") then Except.error ("empty document")
    else Except.ok t

/-- Source `extract_stores_from_pdf` (pdf_parser.py lines 200-258).  The company
label is derived from the filename upstream of everything modelled here and
is taken as a parameter. -/
def extract_stores_from_pdf (t : String) (ocr : Option String)
    (company : String) : Except String (List Store) :=
  match acquireText t ocr with
  | Except.error e => Except.error e
  | Except.ok text => Except.ok (_deduplicate (_parse_stores text company))

/-! ## app.py: the per-source extraction loop (lines 144-157) -/

/-- One PDF source: its display label, the company label derived from its
filename, and its two text candidates. -/
structure SourceInput where
  label : String
  company : String
  pdftext : String
  ocr : Option String

/-- Source `s.setdefault("source_file", label)`. -/
def setSourceFile (label : String) (s : Store) : Store :=
  match s.source_file with
  | none => { s with source_file := some label }
  | some _ => s

/-- The extraction loop of app.py: successes extend `all_stores`, a raised
exception is caught, recorded as (label, message), and the loop continues
with the next source. -/
def processSources (inputs : List SourceInput) :
    List Store × List (String × String) :=
  inputs.foldl
    (fun acc inp =>
      match extract_stores_from_pdf inp.pdftext inp.ocr inp.company with
      | Except.ok stores => (acc.1 ++ stores.map (setSourceFile inp.label), acc.2)
      | Except.error e => (acc.1, acc.2 ++ [(inp.label, e)]))
    ([], [])

/-! ## Concrete instances used by counterexamples and witnesses -/

/-- Identity digest stand-in (the collision arguments below are independent of
the digest because the digest inputs themselves already coincide). -/
def demoId : String → String := fun s => s

/-- Paid-service oracle that never resolves. -/
def demoGsvc : String → String → Option (ℚ × ℚ) := fun _ _ => none

/-- Municipality-level version of the demo address. -/
def demoMunicipality : String := "東京都渋谷区"

/-- Building-level demo address (the spec's own worked example). -/
def demoFullAddr : String := "東京都渋谷区渋谷2-1-1 ABCビル3F"

/-- Free-service oracle that resolves exactly the municipality-level query. -/
def demoNsvc : String → Option (ℚ × ℚ) :=
  fun q => if q = _ensure_japan demoMunicipality then some (35, 139) else none

/-- Free-service oracle that never resolves. -/
def demoFailSvc : String → Option (ℚ × ℚ) := fun _ => none

/-- Demo address shared by two stores. -/
def demoXAddr : String := "X市"

/-- Free-service oracle resolving exactly `demoXAddr`. -/
def demoXsvc : String → Option (ℚ × ℚ) :=
  fun q => if q = _ensure_japan demoXAddr then some (1, 2) else none

/-- Two stores sharing an address plus one with no address. -/
def demoStores : List Store :=
  [⟨some ("S1"), some demoXAddr, none, none, none, []⟩,
   ⟨some ("S2"), some demoXAddr, none, none, none, []⟩,
   ⟨some ("S3"), none, none, none, none, []⟩]

/-- A prefecture-only header line followed by three name-and-phone store
lines that carry no full address. -/
def demoHeaderText : String :=
  "東京\nA店 03-1111-2222\nB店 03-3333-4444\nC店 03-5555-6666"

/-- One line holding a store name and a full prefecture-anchored address. -/
def demoStoreLine : String := "A店 東京都新宿区西新宿2-8-1"

/-- An embedded text comfortably above the 200-character OCR threshold. -/
def demoLongText : String := ⟨List.replicate 200 ('a')⟩

/-- Duplicate-key demo records for deduplication. -/
def demoDupA : Store := ⟨some ("A店"), some ("東京都X区1-1"), some ("社"), none, none, []⟩

/-- Second demo record, distinct key. -/
def demoDupB : Store := ⟨some ("B店"), some ("東京都Y区2-2"), some ("社"), none, none, []⟩

/-- Same dedup key as `demoDupA` but a different `source_file`. -/
def demoDupA2 : Store :=
  ⟨some ("A店"), some ("東京都X区1-1"), some ("社"), some ("f.pdf"), none, []⟩

/-- Input list with a later duplicate of the first record's key. -/
def demoDupList : List Store := [demoDupA, demoDupB, demoDupA2]

/-- The stores a single source contributes to the batch (empty when its
extraction raises). -/
def sourceOkStores (inp : SourceInput) : List Store :=
  match extract_stores_from_pdf inp.pdftext inp.ocr inp.company with
  | Except.ok stores => stores.map (setSourceFile inp.label)
  | Except.error _ => []

/-- The error entry a single source contributes, if its extraction raises. -/
def sourceErr (inp : SourceInput) : Option (String × String) :=
  match extract_stores_from_pdf inp.pdftext inp.ocr inp.company with
  | Except.ok _ => none
  | Except.error e => some (inp.label, e)

/-- Pointwise effect of a batch of per-address coordinate updates with
pairwise distinct addresses. -/
def applyUpd (upd : List (String × (ℚ × ℚ))) (s : Store) : Store :=
  match upd.find? (fun e => e.1 = storeAddr s) with
  | some e => { s with latlng := some e.2 }
  | none => s

/-- The record `_parse_stores` extracts from `demoStoreLine`. -/
def demoStoreRec : Store :=
  ⟨some ("A店"), some ("東京都新宿区西新宿2-8-1"), some ("デモ社"), none, none, []⟩

/-- A source whose extraction succeeds with one record. -/
def demoSrcGood : SourceInput := ⟨("g.pdf"), ("デモ社"), demoStoreLine, none⟩

/-- A second successful source. -/
def demoSrcGood2 : SourceInput := ⟨("h.pdf"), ("デモ社"), demoStoreLine, none⟩

/-- A source whose candidates are all whitespace: the empty-document error. -/
def demoSrcBad : SourceInput := ⟨("b.pdf"), ("社"), ("   "), some ("")⟩

/-! ## Theorems -/

/-- Splitting a list at a separator character that occurs in neither side is
unambiguous. -/
theorem sep_append_inj (c : Char) :
    ∀ (xs ys as bs : List Char), c ∉ xs → c ∉ ys →
      xs ++ c :: as = ys ++ c :: bs → xs = ys ∧ as = bs := by
  intro xs
  induction xs with
  | nil =>
    intro ys as bs _ hy he
    cases ys with
    | nil =>
      simp only [List.nil_append] at he
      exact ⟨rfl, by simpa using he⟩
    | cons y ys2 =>
      exfalso
      apply hy
      have h2 : c = y ∧ as = ys2 ++ c :: bs := by simpa using he
      rw [h2.1]
      exact List.mem_cons_self _ _
  | cons x xs2 ih =>
    intro ys as bs hx hy he
    cases ys with
    | nil =>
      exfalso
      apply hx
      have h2 : x = c ∧ xs2 ++ c :: as = bs := by simpa using he
      rw [h2.1]
      exact List.mem_cons_self _ _
    | cons y ys2 =>
      have h2 : x = y ∧ xs2 ++ c :: as = ys2 ++ c :: bs := by simpa using he
      have hx2 : c ∉ xs2 := fun hm => hx (List.mem_cons_of_mem _ hm)
      have hy2 : c ∉ ys2 := fun hm => hy (List.mem_cons_of_mem _ hm)
      obtain ⟨h3, h4⟩ := ih ys2 as bs hx2 hy2 h2.2
      exact ⟨by rw [h2.1, h3], h4⟩

/-- Strings with equal character data are equal. -/
theorem string_data_inj {u v : String} (h : u.data = v.data) : u = v := by
  cases u with
  | mk d1 =>
    cases v with
    | mk d2 =>
      have h2 : d1 = d2 := h
      rw [h2]

/-- For colon-free provider names the digest input determines the
(provider, address) pair. -/
theorem key_input_inj {a p a2 p2 : String}
    (hp : (':') ∉ p.toList) (hp2 : (':') ∉ p2.toList)
    (he : _key_input a p = _key_input a2 p2) : a = a2 ∧ p = p2 := by
  have hd := congrArg String.data he
  simp only [_key_input, String.data_append, List.append_assoc,
    List.singleton_append, List.cons_append, List.nil_append] at hd
  obtain ⟨h1, h2⟩ := sep_append_inj ':' _ _ _ _ hp hp2 hd
  exact ⟨string_data_inj h2, string_data_inj h1⟩

/-- C5, counterexample: the two distinct (provider, address) pairs
(provider `a:b`, address `c`) and (provider `a`, address `b:c`) produce the
same digest input `a:b:c`, hence the same cache key under any digest — the
key function is not collision-free over all distinct pairs. -/
theorem C5_counterexample :
    _key_input ("c") ("a:b") = _key_input ("b:c") ("a") ∧
    _cache_key demoId ("c") ("a:b") = _cache_key demoId ("b:c") ("a") ∧
    ¬((("a:b") , ("c")) = ((("a") : String), (("b:c") : String))) :=
  ⟨rfl, rfl, by decide⟩

/-- C5, amended: the key is deterministic (it is a function of the pair), but
collision-freedom holds only for colon-free provider names — such as the two
the program uses, `nominatim` and `google` — and only under injectivity of
the digest: with both assumptions, keys agree exactly for equal pairs.
Provider names containing `:` give genuine collisions (`C5_counterexample`),
and MD5 itself is collision-prone, which the digest hypothesis makes
explicit. -/
theorem C5_cache_key_amended (h : String → String) (hinj : Function.Injective h)
    (a p a2 p2 : String) (hp : (':') ∉ p.toList) (hp2 : (':') ∉ p2.toList) :
    _cache_key h a p = _cache_key h a2 p2 ↔ a = a2 ∧ p = p2 := by
  constructor
  · intro he
    exact key_input_inj hp hp2 (hinj he)
  · rintro ⟨rfl, rfl⟩
    rfl

/-- Witness for `C5_cache_key_amended` at the identity digest and the
provider name the program actually uses. -/
theorem C5_cache_key_amended_witness :
    _cache_key demoId ("東京都A市1-1") ("nominatim")
        = _cache_key demoId ("東京都B市2-2") ("nominatim") ↔
      ((("東京都A市1-1") : String) = ("東京都B市2-2") ∧
        (("nominatim") : String) = ("nominatim")) :=
  C5_cache_key_amended demoId (fun _ _ hh => hh) _ _ _ _ (by decide) (by decide)

/-- C4, code-bug evidence: with the source's pool of `NOMINATIM_MAX_WORKERS`
workers each sleeping only `NOMINATIM_THREAD_DELAY` seconds before a request,
the pool can issue 6 requests within one second — a sustained aggregate rate
of 15/2 requests per second — exceeding the 1 request/second limit the
claim (and the source's own comments) state. -/
theorem C4_rate_limit_bug :
    aggregateRequestsWithin NOMINATIM_MAX_WORKERS NOMINATIM_THREAD_DELAY 1 = 6 ∧
    1 < aggregateRequestsWithin NOMINATIM_MAX_WORKERS NOMINATIM_THREAD_DELAY 1 ∧
    (NOMINATIM_MAX_WORKERS : ℚ) / NOMINATIM_THREAD_DELAY = 15 / 2 := by
  have h6 : aggregateRequestsWithin NOMINATIM_MAX_WORKERS NOMINATIM_THREAD_DELAY 1 = 6 := by
    norm_num [aggregateRequestsWithin, workerRequestsWithin, NOMINATIM_MAX_WORKERS,
      NOMINATIM_THREAD_DELAY]
    decide
  refine ⟨h6, by rw [h6]; norm_num, ?_⟩
  norm_num [NOMINATIM_MAX_WORKERS, NOMINATIM_THREAD_DELAY]

/-- C1, counterexample: the free provider resolves the municipality-level
query and the municipality is a prefix (a strictly coarser version) of the
building-level demo address, yet `geocode_single` on the building-level
address returns absent — no progressive-fallback retry exists. -/
theorem C1_counterexample :
    (_nominatim_request demoNsvc demoMunicipality).isSome = true ∧
    demoMunicipality.toList.isPrefixOf demoFullAddr.toList = true ∧
    demoMunicipality ≠ demoFullAddr ∧
    (geocode_single demoId demoNsvc demoGsvc demoFullAddr none ("nominatim") []).result
      = none := by
  refine ⟨?_, by decide, by decide, ?_⟩
  · rw [show _nominatim_request demoNsvc demoMunicipality
        = some ((35 : ℚ), (139 : ℚ)) from rfl]
    rfl
  · rw [show (geocode_single demoId demoNsvc demoGsvc demoFullAddr none ("nominatim")
        []).result = demoNsvc (_ensure_japan demoFullAddr) from rfl]
    simp only [demoNsvc]
    rw [if_neg (by decide)]

/-- C1, amended: for the free provider, resolution of an uncached address
makes exactly one provider attempt, with the literal address (suffixed with
a country token when it has none) — there is no progressive fallback, and a
failure of that single attempt is returned as absent. -/
theorem C1_no_fallback_amended (h : String → String)
    (nsvc : String → Option (ℚ × ℚ)) (gsvc : String → String → Option (ℚ × ℚ))
    (address : String) (cache : Cache) (hne : ¬(address = ("")))
    (hmiss : _cache_get cache (_cache_key h address ("nominatim")) = none) :
    (geocode_single h nsvc gsvc address none ("nominatim") cache).result
        = nsvc (_ensure_japan address) ∧
    (geocode_single h nsvc gsvc address none ("nominatim") cache).providerCalled
        = true := by
  cases hres : nsvc (_ensure_japan address) with
  | none =>
    constructor <;>
      simp [geocode_single, hne, hmiss, _nominatim_request, hres, pyTruthy]
  | some c =>
    constructor <;>
      simp [geocode_single, hne, hmiss, _nominatim_request, hres, pyTruthy]

/-- Witness for `C1_no_fallback_amended` on a concrete uncached address. -/
theorem C1_no_fallback_amended_witness :
    (geocode_single demoId demoFailSvc demoGsvc demoXAddr none ("nominatim") []).result
        = demoFailSvc (_ensure_japan demoXAddr) ∧
    (geocode_single demoId demoFailSvc demoGsvc demoXAddr none ("nominatim")
        []).providerCalled = true :=
  C1_no_fallback_amended demoId demoFailSvc demoGsvc demoXAddr [] (by decide) rfl

/-- C2, counterexample: an address the provider cannot resolve leaves the
cache untouched (no null row is stored), and an immediately following call
for the same (provider, address) pair issues a provider request again — the
unresolvable address is re-queried, and a cache lookup cannot return a
"known absent" distinct from a miss. -/
theorem C2_counterexample :
    (geocode_single demoId demoFailSvc demoGsvc demoXAddr none ("nominatim") []).result
      = none ∧
    (geocode_single demoId demoFailSvc demoGsvc demoXAddr none ("nominatim") []).cache
      = [] ∧
    (geocode_single demoId demoFailSvc demoGsvc demoXAddr none ("nominatim")
        ((geocode_single demoId demoFailSvc demoGsvc demoXAddr none ("nominatim")
          []).cache)).providerCalled = true := by
  refine ⟨rfl, rfl, rfl⟩

/-- C2, amended: only successful geocoding results are stored; a null result
leaves the cache exactly as it was, so a later call for the same
(provider, address) pair misses the cache again and queries the provider
again.  (Within one process the `lru_cache` memoiser can short-circuit a
textually identical call, but nothing is recorded in the persistent cache.) -/
theorem C2_null_not_cached_amended (h : String → String)
    (nsvc : String → Option (ℚ × ℚ)) (gsvc : String → String → Option (ℚ × ℚ))
    (address : String) (api_key : Option String) (provider : String)
    (cache : Cache)
    (hnone : (geocode_single h nsvc gsvc address api_key provider cache).result
      = none) :
    (geocode_single h nsvc gsvc address api_key provider cache).cache = cache ∧
    (¬(address = ("")) →
      (geocode_single h nsvc gsvc address api_key provider
        ((geocode_single h nsvc gsvc address api_key provider cache).cache)
        ).providerCalled = true) := by
  by_cases hne : address = ("")
  · constructor
    · simp [geocode_single, hne]
    · intro hcon
      exact absurd hne hcon
  · cases hhit : _cache_get cache (_cache_key h address provider) with
    | some c =>
      exfalso
      have : (geocode_single h nsvc gsvc address api_key provider cache).result
          = some c := by
        simp [geocode_single, hne, hhit]
      rw [this] at hnone
      exact Option.noConfusion hnone
    | none =>
      cases hres : (if provider = ("google") && pyTruthy api_key then
          _google_request gsvc address (api_key.getD (""))
        else _nominatim_request nsvc address) with
      | some c =>
        exfalso
        have : (geocode_single h nsvc gsvc address api_key provider cache).result
            = some c := by
          simp only [geocode_single, if_neg hne, hhit]
          rw [hres]
        rw [this] at hnone
        exact Option.noConfusion hnone
      | none =>
        have hcache : (geocode_single h nsvc gsvc address api_key provider
            cache).cache = cache := by
          simp only [geocode_single, if_neg hne, hhit]
          rw [hres]
        refine ⟨hcache, fun _ => ?_⟩
        rw [hcache]
        simp only [geocode_single, if_neg hne, hhit]
        rw [hres]

/-- Witness for `C2_null_not_cached_amended` on a concrete failing address. -/
theorem C2_null_not_cached_amended_witness :
    (geocode_single demoId demoFailSvc demoGsvc demoXAddr none ("nominatim") []).cache
      = ([] : Cache) ∧
    (geocode_single demoId demoFailSvc demoGsvc demoXAddr none ("nominatim")
      ((geocode_single demoId demoFailSvc demoGsvc demoXAddr none ("nominatim")
        []).cache)).providerCalled = true := by
  have hmain := C2_null_not_cached_amended demoId demoFailSvc demoGsvc demoXAddr
    none ("nominatim") [] rfl
  exact ⟨hmain.1, hmain.2 (by decide)⟩

/-- C7: the OCR fallback is consulted exactly below the 200
non-whitespace-character threshold — at or above it the outcome is
independent of the OCR candidate — and when both candidates exist the one
with more non-whitespace characters is kept (the embedded text on ties). -/
theorem C7_ocr_threshold_and_selection (t t2 : String) :
    (200 ≤ meaningfulLen t →
      ∀ o o2 : Option String, acquireText t o = acquireText t o2) ∧
    (meaningfulLen t < 200 → meaningfulLen t < meaningfulLen t2 →
      acquireText t (some t2)
        = if pyStrip t2 = ("") then Except.error ("empty document")
          else Except.ok t2) ∧
    (meaningfulLen t < 200 → meaningfulLen t2 ≤ meaningfulLen t →
      acquireText t (some t2)
        = if pyStrip t = ("") then Except.error ("empty document")
          else Except.ok t) := by
  refine ⟨?_, ?_, ?_⟩
  · intro hge o o2
    have hnlt : ¬(meaningfulLen t < 200) := not_lt.mpr hge
    simp [acquireText, hnlt]
  · intro hlt hmore
    simp [acquireText, hlt, hmore]
  · intro hlt hle
    have hnlt : ¬(meaningfulLen t < meaningfulLen t2) := not_lt.mpr hle
    simp [acquireText, hlt, hnlt]

set_option maxRecDepth 8000 in
/-- Witness for `C7_ocr_threshold_and_selection`: above the threshold the OCR
candidate is ignored; below it the larger candidate wins and the smaller
loses. -/
theorem C7_ocr_threshold_and_selection_witness :
    acquireText demoLongText none = acquireText demoLongText (some ("ocr")) ∧
    acquireText ("店") (some demoStoreLine) = Except.ok demoStoreLine ∧
    acquireText ("店名店名店") (some ("x")) = Except.ok ("店名店名店") := by
  refine ⟨?_, ?_, ?_⟩
  · exact (C7_ocr_threshold_and_selection demoLongText ("x")).1 (by decide) none
      (some ("ocr"))
  · have h := (C7_ocr_threshold_and_selection ("店") demoStoreLine).2.1 (by decide)
      (by decide)
    rw [h, if_neg (by decide)]
  · have h := (C7_ocr_threshold_and_selection ("店名店名店") ("x")).2.2 (by decide)
      (by decide)
    rw [h, if_neg (by decide)]

/-- The head of a non-empty `dropWhile` result fails the predicate. -/
theorem dropWhile_head_false {p : Char → Bool} :
    ∀ (l : List Char) {c : Char} {cs : List Char},
      l.dropWhile p = c :: cs → p c = false := by
  intro l
  induction l with
  | nil =>
    intro c cs h
    simp at h
  | cons a l2 ih =>
    intro c cs h
    rw [List.dropWhile_cons] at h
    by_cases hpa : p a = true
    · rw [if_pos hpa] at h
      exact ih h
    · rw [if_neg hpa] at h
      cases h
      simpa using hpa

/-- All characters of a string with empty `strip()` are whitespace. -/
theorem all_space_of_pyStrip_empty {t : String} (h : pyStrip t = ("")) :
    ∀ x ∈ t.toList, isPySpace x = true := by
  have hdata := congrArg String.data h
  simp only [pyStrip] at hdata
  have hd2 : (t.toList.dropWhile isPySpace).reverse.dropWhile isPySpace = [] := by
    have := congrArg List.reverse hdata
    simpa using this
  have hall : ∀ x ∈ (t.toList.dropWhile isPySpace).reverse, isPySpace x = true := by
    intro x hx
    exact List.dropWhile_eq_nil_iff.mp hd2 x hx
  have hall2 : ∀ x ∈ t.toList.dropWhile isPySpace, isPySpace x = true := by
    intro x hx
    exact hall x (List.mem_reverse.mpr hx)
  cases hdrop : t.toList.dropWhile isPySpace with
  | nil =>
    intro x hx
    exact List.dropWhile_eq_nil_iff.mp hdrop x hx
  | cons c cs =>
    exfalso
    have hc : isPySpace c = false := dropWhile_head_false t.toList hdrop
    have hc2 : isPySpace c = true :=
      hall2 c (by rw [hdrop]; exact List.mem_cons_self _ _)
    rw [hc] at hc2
    exact Bool.noConfusion hc2

/-- A string with empty `strip()` has no meaningful characters. -/
theorem meaningfulLen_zero_of_pyStrip_empty {t : String} (h : pyStrip t = ("")) :
    meaningfulLen t = 0 := by
  have hall := all_space_of_pyStrip_empty h
  simp only [meaningfulLen, List.length_eq_zero]
  rw [List.filter_eq_nil_iff]
  intro a ha
  simp [hall a ha]

/-- Accumulator form of the app.py extraction loop. -/
theorem processSources_foldl (inputs : List SourceInput) :
    ∀ acc : List Store × List (String × String),
      inputs.foldl
        (fun acc inp =>
          match extract_stores_from_pdf inp.pdftext inp.ocr inp.company with
          | Except.ok stores => (acc.1 ++ stores.map (setSourceFile inp.label), acc.2)
          | Except.error e => (acc.1, acc.2 ++ [(inp.label, e)])) acc
      = (acc.1 ++ inputs.flatMap sourceOkStores,
         acc.2 ++ inputs.filterMap sourceErr) := by
  induction inputs with
  | nil => intro acc; simp
  | cons i rest ih =>
    intro acc
    cases hres : extract_stores_from_pdf i.pdftext i.ocr i.company with
    | ok stores =>
      simp only [List.foldl_cons, hres, ih, List.flatMap_cons, List.filterMap_cons,
        sourceOkStores, sourceErr, List.append_assoc]
    | error e =>
      simp only [List.foldl_cons, hres, ih, List.flatMap_cons, List.filterMap_cons,
        sourceOkStores, sourceErr, List.append_assoc]
      simp

/-- C8: a source whose text candidates contain no extractable characters
fails with the empty-document error; the batch loop records each failing
source's error and keeps processing, so the output of a batch is exactly the
concatenation of the per-source successes — a bad document in the middle
contributes nothing but its error entry and never aborts the rest. -/
theorem C8_empty_doc_isolated :
    (∀ t t2 company, pyStrip t = ("") → pyStrip t2 = ("") →
      extract_stores_from_pdf t (some t2) company
        = Except.error ("empty document")) ∧
    (∀ t company, pyStrip t = ("") →
      ∃ e, extract_stores_from_pdf t none company = Except.error e) ∧
    (∀ inputs, processSources inputs
      = (inputs.flatMap sourceOkStores, inputs.filterMap sourceErr)) ∧
    (∀ pre bad post,
      (∃ e, extract_stores_from_pdf bad.pdftext bad.ocr bad.company
        = Except.error e) →
      (processSources (pre ++ bad :: post)).1
          = (processSources pre).1 ++ (processSources post).1 ∧
      ∃ e, (bad.label, e) ∈ (processSources (pre ++ bad :: post)).2) := by
  have hchar : ∀ inputs, processSources inputs
      = (inputs.flatMap sourceOkStores, inputs.filterMap sourceErr) := by
    intro inputs
    have h := processSources_foldl inputs ([], [])
    simpa [processSources] using h
  refine ⟨?_, ?_, hchar, ?_⟩
  · intro t t2 company h1 h2
    have hm1 : meaningfulLen t = 0 := meaningfulLen_zero_of_pyStrip_empty h1
    have hm2 : meaningfulLen t2 = 0 := meaningfulLen_zero_of_pyStrip_empty h2
    simp [extract_stores_from_pdf, acquireText, hm1, hm2, h1]
  · intro t company h1
    have hm1 : meaningfulLen t = 0 := meaningfulLen_zero_of_pyStrip_empty h1
    by_cases ht : t = ("")
    · refine ⟨("text extraction and OCR both failed"), ?_⟩
      subst ht
      have h0 : meaningfulLen ("") < 200 := by decide
      simp [extract_stores_from_pdf, acquireText, h0]
    · refine ⟨("empty document"), ?_⟩
      simp [extract_stores_from_pdf, acquireText, hm1, ht, h1]
  · intro pre bad post hbad
    obtain ⟨e, he⟩ := hbad
    constructor
    · rw [hchar (pre ++ bad :: post), hchar pre, hchar post]
      simp [sourceOkStores, he]
    · refine ⟨e, ?_⟩
      rw [hchar (pre ++ bad :: post)]
      simp only [List.filterMap_append, List.filterMap_cons, sourceErr, he]
      simp

/-- Witness for `C8_empty_doc_isolated`: a whitespace-only source fails with
the empty-document error, and a batch with that source in the middle still
yields the two good sources' stores plus the bad source's error entry. -/
theorem C8_empty_doc_isolated_witness :
    extract_stores_from_pdf ("   ") (some (" ")) ("社")
      = Except.error ("empty document") ∧
    (processSources [demoSrcGood, demoSrcBad, demoSrcGood2]).1
      = (processSources [demoSrcGood]).1 ++ (processSources [demoSrcGood2]).1 ∧
    (∃ e, (demoSrcBad.label, e)
      ∈ (processSources [demoSrcGood, demoSrcBad, demoSrcGood2]).2) := by
  have h1 := C8_empty_doc_isolated.1 ("   ") (" ") ("社") (by decide) (by decide)
  have h4 := C8_empty_doc_isolated.2.2.2 [demoSrcGood] demoSrcBad [demoSrcGood2]
    ⟨("empty document"), by rfl⟩
  exact ⟨h1, h4.1, h4.2⟩

/-- Deduplication only drops elements, in place: the output is a sublist. -/
theorem dedupGo_sublist (seen : List (String × String × String)) (l : List Store) :
    List.Sublist (dedupGo seen l) l := by
  induction l generalizing seen with
  | nil => simp [dedupGo]
  | cons s rest ih =>
    simp only [dedupGo]
    split
    · exact (ih seen).cons s
    · exact (ih _).cons₂ s

/-- Keys in the output are distinct and avoid the seen set. -/
theorem dedupGo_keys_nodup (l : List Store) :
    ∀ seen, ((dedupGo seen l).map dedupKey).Nodup ∧
      ∀ k ∈ (dedupGo seen l).map dedupKey, k ∉ seen := by
  induction l with
  | nil => intro seen; simp [dedupGo]
  | cons s rest ih =>
    intro seen
    simp only [dedupGo]
    split
    · exact ih seen
    · rename_i hmem
      obtain ⟨ih1, ih2⟩ := ih (dedupKey s :: seen)
      refine ⟨?_, ?_⟩
      · simp only [List.map_cons, List.nodup_cons]
        exact ⟨fun hk => (ih2 _ hk) (List.mem_cons_self _ _), ih1⟩
      · intro k hk
        simp only [List.map_cons, List.mem_cons] at hk
        cases hk with
        | inl he => rw [he]; exact hmem
        | inr hin => exact fun hs => (ih2 k hin) (List.mem_cons_of_mem _ hs)

/-- The first input element with a given key is also the first output element
with that key. -/
theorem dedupGo_find? (l : List Store) :
    ∀ seen k, k ∉ seen →
      (dedupGo seen l).find? (fun t => decide (dedupKey t = k))
        = l.find? (fun t => decide (dedupKey t = k)) := by
  induction l with
  | nil => intro seen k _; rfl
  | cons s rest ih =>
    intro seen k hk
    simp only [dedupGo]
    split
    · rename_i hmem
      have hne : ¬(dedupKey s = k) := fun he => hk (he ▸ hmem)
      rw [ih seen k hk, List.find?_cons]
      simp [hne]
    · rename_i hmem
      by_cases he : dedupKey s = k
      · rw [List.find?_cons, List.find?_cons]
        simp [he]
      · have hk2 : k ∉ dedupKey s :: seen := by
          intro hmem2
          rcases List.mem_cons.mp hmem2 with h2 | h2
          · exact he h2.symm
          · exact hk h2
        rw [List.find?_cons, List.find?_cons]
        simp only [decide_eq_false he]
        exact ih _ k hk2

/-- C6: deduplication leaves no two records with the same
(company, name, address) key, the output is a sublist of the input (so the
surviving records keep their relative order and nothing is added), and for
every key present the surviving record is the first input occurrence. -/
theorem C6_dedup (l : List Store) :
    ((_deduplicate l).map dedupKey).Nodup ∧
    List.Sublist (_deduplicate l) l ∧
    ∀ s ∈ l, (_deduplicate l).find? (fun t => decide (dedupKey t = dedupKey s))
        = l.find? (fun t => decide (dedupKey t = dedupKey s)) := by
  refine ⟨(dedupGo_keys_nodup l [] ).1, dedupGo_sublist [] l, ?_⟩
  intro s _
  exact dedupGo_find? l [] (dedupKey s) (by simp)

/-- Witness for `C6_dedup` on a list with a later duplicate key: the
duplicate is dropped, order is kept, and the first occurrence survives. -/
theorem C6_dedup_witness :
    ((_deduplicate demoDupList).map dedupKey).Nodup ∧
    List.Sublist (_deduplicate demoDupList) demoDupList ∧
    (_deduplicate demoDupList).find?
        (fun t => decide (dedupKey t = dedupKey demoDupA2))
      = demoDupList.find? (fun t => decide (dedupKey t = dedupKey demoDupA2)) :=
  ⟨(C6_dedup demoDupList).1, (C6_dedup demoDupList).2.1,
    (C6_dedup demoDupList).2.2 demoDupA2 (by decide)⟩

/-- Updating a group's coordinates does not change its stripped address. -/
theorem storeAddr_latlng (s : Store) (c : ℚ × ℚ) :
    storeAddr { s with latlng := some c } = storeAddr s := rfl

/-- An update batch does not change the stripped address either. -/
theorem storeAddr_applyUpd (upd : List (String × (ℚ × ℚ))) (s : Store) :
    storeAddr (applyUpd upd s) = storeAddr s := by
  unfold applyUpd
  split <;> rfl

/-- No update row for a key means `find?` misses. -/
theorem find?_pairing_of_not_mem (fetch : String → Option (ℚ × ℚ)) :
    ∀ (order : List String) (a : String), a ∉ order →
      (order.filterMap (fun x => (fetch x).map (fun c => (x, c)))).find?
        (fun e => e.1 = a) = none := by
  intro order
  induction order with
  | nil => intro a _; rfl
  | cons b rest ih =>
    intro a ha
    have hb : ¬(b = a) := fun he => ha (he ▸ List.mem_cons_self _ _)
    have ha2 : a ∉ rest := fun hm => ha (List.mem_cons_of_mem _ hm)
    cases hf : fetch b with
    | none => simpa [List.filterMap_cons, hf] using ih a ha2
    | some c =>
      simp only [List.filterMap_cons, hf, Option.map_some']
      rw [List.find?_cons]
      simp only [decide_eq_false hb]
      exact ih a ha2

/-- With pairwise distinct addresses, `find?` on the update batch returns
exactly the fetched pair. -/
theorem find?_pairing_of_mem (fetch : String → Option (ℚ × ℚ)) :
    ∀ (order : List String) (a : String), order.Nodup → a ∈ order →
      (order.filterMap (fun x => (fetch x).map (fun c => (x, c)))).find?
        (fun e => e.1 = a) = (fetch a).map (fun c => (a, c)) := by
  intro order
  induction order with
  | nil => intro a _ ha; exact absurd ha (List.not_mem_nil a)
  | cons b rest ih =>
    intro a hnd ha
    have hnd2 : rest.Nodup := (List.nodup_cons.mp hnd).2
    have hbn : b ∉ rest := (List.nodup_cons.mp hnd).1
    by_cases hb : b = a
    · subst hb
      cases hf : fetch b with
      | none =>
        simp only [List.filterMap_cons, hf, Option.map_none']
        exact find?_pairing_of_not_mem fetch rest b hbn
      | some c =>
        simp only [List.filterMap_cons, hf, Option.map_some']
        rw [List.find?_cons]
        simp
    · have ha2 : a ∈ rest := by
        rcases List.mem_cons.mp ha with h | h
        · exact absurd h.symm hb
        · exact h
      cases hf : fetch b with
      | none => simpa [List.filterMap_cons, hf] using ih a hnd2 ha2
      | some c =>
        simp only [List.filterMap_cons, hf, Option.map_some']
        rw [List.find?_cons]
        simp only [decide_eq_false hb]
        exact ih a hnd2 ha2

/-- The keys of the update batch form a sublist of the address list. -/
theorem pairing_keys_sublist (fetch : String → Option (ℚ × ℚ)) :
    ∀ order : List String,
      List.Sublist ((order.filterMap
        (fun x => (fetch x).map (fun c => (x, c)))).map Prod.fst) order := by
  intro order
  induction order with
  | nil => simp
  | cons b rest ih =>
    cases hf : fetch b with
    | none =>
      simp only [List.filterMap_cons, hf, Option.map_none']
      exact ih.cons b
    | some c =>
      simp only [List.filterMap_cons, hf, Option.map_some', List.map_cons]
      exact ih.cons₂ b

/-- A fold of per-address group updates with pairwise distinct addresses is a
pointwise map. -/
theorem foldl_setGroup :
    ∀ (upd : List (String × (ℚ × ℚ))) (l : List Store),
      (upd.map Prod.fst).Nodup →
      upd.foldl (fun st e => setGroup e.1 e.2 st) l = l.map (applyUpd upd) := by
  intro upd
  induction upd with
  | nil =>
    intro l _
    have hfun : applyUpd [] = fun s => s := funext fun s => rfl
    rw [hfun, List.map_id']
    rfl
  | cons e rest ih =>
    intro l hnd
    have hnd2 : (rest.map Prod.fst).Nodup := by
      simp only [List.map_cons, List.nodup_cons] at hnd
      exact hnd.2
    have hnot : e.1 ∉ rest.map Prod.fst := by
      simp only [List.map_cons, List.nodup_cons] at hnd
      exact hnd.1
    simp only [List.foldl_cons]
    rw [ih (setGroup e.1 e.2 l) hnd2]
    simp only [setGroup, List.map_map]
    apply List.map_congr_left
    intro s _
    simp only [Function.comp_apply]
    by_cases hsa : storeAddr s = e.1
    · rw [if_pos hsa]
      have hfind : rest.find?
          (fun x => x.1 = storeAddr ({ s with latlng := some e.2 } : Store))
          = none := by
        apply List.find?_eq_none.mpr
        intro x hx
        have hxk : x.1 ∈ rest.map Prod.fst := List.mem_map_of_mem _ hx
        simp only [storeAddr_latlng, hsa]
        intro hxe
        rw [decide_eq_true_eq] at hxe
        exact hnot (hxe ▸ hxk)
      have hfind2 : (e :: rest).find? (fun x => x.1 = storeAddr s) = some e := by
        rw [List.find?_cons]
        simp [hsa]
      simp only [applyUpd, hfind, hfind2]
    · rw [if_neg hsa]
      have hne : ¬(e.1 = storeAddr s) := fun he => hsa he.symm
      simp only [applyUpd, List.find?_cons, decide_eq_false hne]

/-- A fold that looks each address up and updates its group on success equals
the fold of the successful updates. -/
theorem foldl_match_eq_filterMap (fetch : String → Option (ℚ × ℚ)) :
    ∀ (order : List String) (l : List Store),
      order.foldl (fun st a =>
          match fetch a with
          | some c => setGroup a c st
          | none => st) l
        = (order.filterMap (fun x => (fetch x).map (fun c => (x, c)))).foldl
            (fun st e => setGroup e.1 e.2 st) l := by
  intro order
  induction order with
  | nil => intro l; rfl
  | cons b rest ih =>
    intro l
    simp only [List.foldl_cons]
    cases hf : fetch b with
    | none =>
      simp only [List.filterMap_cons, hf, Option.map_none']
      exact ih l
    | some c =>
      simp only [List.filterMap_cons, hf, Option.map_some', List.foldl_cons]
      exact ih (setGroup b c l)

/-- Store component of the completion loop: the cache and call log do not
feed back into the store updates. -/
theorem step2_foldl_stores (h : String → String) (nsvc : String → Option (ℚ × ℚ))
    (gsvc : String → String → Option (ℚ × ℚ)) (api_key : Option String)
    (provider : String) :
    ∀ (order : List String) (init : BulkResult),
      (order.foldl (fun r a =>
          match _fetch_one nsvc gsvc api_key provider a with
          | some c => BulkResult.mk (setGroup a c r.stores)
              (_cache_set r.cache (_cache_key h a provider) c.1 c.2)
              (r.calls ++ [a])
          | none => BulkResult.mk r.stores r.cache (r.calls ++ [a])) init).stores
      = order.foldl (fun st a =>
          match _fetch_one nsvc gsvc api_key provider a with
          | some c => setGroup a c st
          | none => st) init.stores := by
  intro order
  induction order with
  | nil => intro init; rfl
  | cons b rest ih =>
    intro init
    simp only [List.foldl_cons]
    cases hf : _fetch_one nsvc gsvc api_key provider b with
    | none => exact ih _
    | some c => exact ih _

/-- Call log of the completion loop: every completed future is logged, in
completion order, successes and failures alike. -/
theorem step2_foldl_calls (h : String → String) (nsvc : String → Option (ℚ × ℚ))
    (gsvc : String → String → Option (ℚ × ℚ)) (api_key : Option String)
    (provider : String) :
    ∀ (order : List String) (init : BulkResult),
      (order.foldl (fun r a =>
          match _fetch_one nsvc gsvc api_key provider a with
          | some c => BulkResult.mk (setGroup a c r.stores)
              (_cache_set r.cache (_cache_key h a provider) c.1 c.2)
              (r.calls ++ [a])
          | none => BulkResult.mk r.stores r.cache (r.calls ++ [a])) init).calls
      = init.calls ++ order := by
  intro order
  induction order with
  | nil => intro init; simp
  | cons b rest ih =>
    intro init
    simp only [List.foldl_cons]
    cases hf : _fetch_one nsvc gsvc api_key provider b with
    | none =>
      rw [ih]
      simp
    | some c =>
      rw [ih]
      simp

/-- Monotonicity of the unique-address accumulator. -/
theorem uniqueAddrs_foldl_mono :
    ∀ (l : List Store) (acc : List String) (x : String), x ∈ acc →
      x ∈ l.foldl (fun acc s =>
        let a := storeAddr s
        if a = ("") then acc else if a ∈ acc then acc else acc ++ [a]) acc := by
  intro l
  induction l with
  | nil => intro acc x hx; exact hx
  | cons s rest ih =>
    intro acc x hx
    simp only [List.foldl_cons]
    apply ih
    by_cases h1 : storeAddr s = ("")
    · simpa [h1] using hx
    · by_cases h2 : storeAddr s ∈ acc
      · simpa [h1, h2] using hx
      · simp only [h1, h2]
        simp [hx]

/-- The unique-address accumulator stays duplicate-free. -/
theorem uniqueAddrs_foldl_nodup :
    ∀ (l : List Store) (acc : List String), acc.Nodup →
      (l.foldl (fun acc s =>
        let a := storeAddr s
        if a = ("") then acc else if a ∈ acc then acc else acc ++ [a]) acc).Nodup := by
  intro l
  induction l with
  | nil => intro acc h; exact h
  | cons s rest ih =>
    intro acc hacc
    simp only [List.foldl_cons]
    apply ih
    by_cases h1 : storeAddr s = ("")
    · simpa [h1] using hacc
    · by_cases h2 : storeAddr s ∈ acc
      · simpa [h1, h2] using hacc
      · simp only [h1, h2]
        simp [List.nodup_append, hacc, h2]

/-- The unique-address accumulator never acquires the empty address. -/
theorem uniqueAddrs_foldl_ne_empty :
    ∀ (l : List Store) (acc : List String), ("") ∉ acc →
      ("") ∉ l.foldl (fun acc s =>
        let a := storeAddr s
        if a = ("") then acc else if a ∈ acc then acc else acc ++ [a]) acc := by
  intro l
  induction l with
  | nil => intro acc h; exact h
  | cons s rest ih =>
    intro acc hacc
    simp only [List.foldl_cons]
    apply ih
    by_cases h1 : storeAddr s = ("")
    · simpa [h1] using hacc
    · by_cases h2 : storeAddr s ∈ acc
      · simpa [h1, h2] using hacc
      · simp only [h1, h2]
        intro hmem
        rcases List.mem_append.mp hmem with hm | hm
        · exact hacc hm
        · exact h1 (List.mem_singleton.mp hm).symm

/-- Every store with a non-empty stripped address is represented in the
unique-address accumulator. -/
theorem uniqueAddrs_foldl_mem :
    ∀ (l : List Store) (acc : List String) (s : Store), s ∈ l →
      ¬(storeAddr s = ("")) →
      storeAddr s ∈ l.foldl (fun acc s =>
        let a := storeAddr s
        if a = ("") then acc else if a ∈ acc then acc else acc ++ [a]) acc := by
  intro l
  induction l with
  | nil => intro acc s hs; exact absurd hs (List.not_mem_nil s)
  | cons s2 rest ih =>
    intro acc s hs hne
    rcases List.mem_cons.mp hs with he | hm
    · subst he
      simp only [List.foldl_cons]
      apply uniqueAddrs_foldl_mono
      by_cases h2 : storeAddr s ∈ acc
      · simp [hne, h2]
      · simp [hne, h2]
    · simp only [List.foldl_cons]
      exact ih _ s hm hne

/-- The program's unique-address list is duplicate-free. -/
theorem uniqueAddrs_nodup (stores : List Store) : (uniqueAddrs stores).Nodup := by
  simpa [uniqueAddrs] using uniqueAddrs_foldl_nodup stores [] List.nodup_nil

/-- The unique-address list never contains the empty address. -/
theorem uniqueAddrs_ne_empty {stores : List Store} {a : String}
    (ha : a ∈ uniqueAddrs stores) : ¬(a = ("")) := by
  intro he
  subst he
  exact uniqueAddrs_foldl_ne_empty stores [] (List.not_mem_nil _) ha

/-- Membership in the unique-address list for every listed store. -/
theorem uniqueAddrs_mem {stores : List Store} {s : Store} (hs : s ∈ stores)
    (hne : ¬(storeAddr s = (""))) : storeAddr s ∈ uniqueAddrs stores := by
  simpa [uniqueAddrs] using uniqueAddrs_foldl_mem stores [] s hs hne

/-- Characterisation of the `need_api` list. -/
theorem needApi_mem (h : String → String) (provider : String) (cache : Cache)
    (stores : List Store) (a : String) :
    a ∈ needApi h provider cache stores ↔
      a ∈ uniqueAddrs stores ∧
        _cache_get cache (_cache_key h a provider) = none := by
  simp [needApi, List.mem_filter, Option.isNone_iff_eq_none]

/-- The `need_api` list is duplicate-free. -/
theorem needApi_nodup (h : String → String) (provider : String) (cache : Cache)
    (stores : List Store) : (needApi h provider cache stores).Nodup :=
  (uniqueAddrs_nodup stores).filter _

/-- Applying an update batch whose addresses miss the store leaves it alone. -/
theorem applyUpd_pairing_not_mem (fetch : String → Option (ℚ × ℚ))
    (order : List String) (t : Store) (hnm : storeAddr t ∉ order) :
    applyUpd (order.filterMap (fun x => (fetch x).map (fun c => (x, c)))) t = t := by
  unfold applyUpd
  rw [find?_pairing_of_not_mem fetch order _ hnm]

/-- Applying an update batch that contains the store's address sets exactly
that fetch result. -/
theorem applyUpd_pairing_mem (fetch : String → Option (ℚ × ℚ))
    (order : List String) (t : Store) (hnd : order.Nodup)
    (hm : storeAddr t ∈ order) :
    applyUpd (order.filterMap (fun x => (fetch x).map (fun c => (x, c)))) t
      = match fetch (storeAddr t) with
        | some c => { t with latlng := some c }
        | none => t := by
  unfold applyUpd
  rw [find?_pairing_of_mem fetch order _ hnd hm]
  cases fetch (storeAddr t) <;> rfl

/-- Refinement of one bulk run: for any completion order of the uncached
unique addresses, the run maps each store to its per-record assignment and
logs exactly the processed addresses. -/
theorem geocode_addresses_spec (h : String → String)
    (nsvc : String → Option (ℚ × ℚ)) (gsvc : String → String → Option (ℚ × ℚ))
    (api_key : Option String) (provider : String) (cache : Cache)
    (stores : List Store) (order : List String)
    (hperm : order.Perm (needApi h provider cache stores)) :
    (geocode_addresses h nsvc gsvc api_key provider cache stores order).stores
      = stores.map (assignCoord h nsvc gsvc api_key provider cache) ∧
    (geocode_addresses h nsvc gsvc api_key provider cache stores order).calls
      = order := by
  have hordernd : order.Nodup :=
    hperm.nodup_iff.mpr (needApi_nodup h provider cache stores)
  constructor
  · unfold geocode_addresses geocodeStep2
    rw [step2_foldl_stores h nsvc gsvc api_key provider order]
    rw [foldl_match_eq_filterMap (fun a => _fetch_one nsvc gsvc api_key provider a)
      order]
    rw [foldl_setGroup _ _
      (List.Nodup.sublist
        (pairing_keys_sublist (fun a => _fetch_one nsvc gsvc api_key provider a)
          order) hordernd)]
    have hstep1 : (BulkResult.mk (geocodeStep1 h provider cache stores) cache
        []).stores
        = stores.map (applyUpd ((uniqueAddrs stores).filterMap
            (fun x => ((fun a => _cache_get cache (_cache_key h a provider)) x).map
              (fun c => (x, c))))) := by
      show geocodeStep1 h provider cache stores = _
      unfold geocodeStep1
      rw [foldl_match_eq_filterMap (fun a => _cache_get cache (_cache_key h a provider))
        (uniqueAddrs stores)]
      exact foldl_setGroup _ _
        (List.Nodup.sublist
          (pairing_keys_sublist (fun a => _cache_get cache (_cache_key h a provider))
            (uniqueAddrs stores)) (uniqueAddrs_nodup stores))
    rw [hstep1, List.map_map]
    apply List.map_congr_left
    intro s hs
    simp only [Function.comp_apply]
    by_cases ha : storeAddr s = ("")
    · have hnotin1 : storeAddr s ∉ uniqueAddrs stores :=
        fun hmem => (uniqueAddrs_ne_empty hmem) ha
      have hnotin2 : storeAddr s ∉ order := by
        intro hmem
        exact hnotin1 ((needApi_mem h provider cache stores _).mp
          (hperm.mem_iff.mp hmem)).1
      rw [applyUpd_pairing_not_mem _ _ _ hnotin1,
        applyUpd_pairing_not_mem _ _ _ hnotin2]
      simp [assignCoord, ha]
    · have hmemU : storeAddr s ∈ uniqueAddrs stores := uniqueAddrs_mem hs ha
      rw [applyUpd_pairing_mem _ _ _ (uniqueAddrs_nodup stores) hmemU]
      cases hc : _cache_get cache (_cache_key h (storeAddr s) provider) with
      | some c =>
        simp only [hc]
        have hnotNeed : storeAddr s ∉ needApi h provider cache stores := by
          intro hmem
          have h2 := ((needApi_mem h provider cache stores _).mp hmem).2
          rw [hc] at h2
          exact Option.noConfusion h2
        have hnot2 : storeAddr s ∉ order :=
          fun hm => hnotNeed (hperm.mem_iff.mp hm)
        rw [applyUpd_pairing_not_mem _ _ _
          (by rw [storeAddr_latlng]; exact hnot2)]
        simp [assignCoord, resolveAddr, ha, hc]
      | none =>
        simp only [hc]
        have hmemN : storeAddr s ∈ needApi h provider cache stores :=
          (needApi_mem h provider cache stores _).mpr ⟨hmemU, hc⟩
        have hmemO : storeAddr s ∈ order := hperm.mem_iff.mpr hmemN
        rw [applyUpd_pairing_mem _ _ _ hordernd hmemO]
        cases hf : _fetch_one nsvc gsvc api_key provider (storeAddr s) with
        | some c => simp [assignCoord, resolveAddr, ha, hc, hf]
        | none => simp [assignCoord, resolveAddr, ha, hc, hf]
  · unfold geocode_addresses geocodeStep2
    rw [step2_foldl_calls h nsvc gsvc api_key provider order]
    simp

/-- Per-record frame facts of one bulk run's assignment. -/
theorem assignCoord_frame (h : String → String) (nsvc : String → Option (ℚ × ℚ))
    (gsvc : String → String → Option (ℚ × ℚ)) (api_key : Option String)
    (provider : String) (cache : Cache) (s : Store) :
    (assignCoord h nsvc gsvc api_key provider cache s).name = s.name ∧
    (assignCoord h nsvc gsvc api_key provider cache s).address = s.address ∧
    (assignCoord h nsvc gsvc api_key provider cache s).company = s.company ∧
    (assignCoord h nsvc gsvc api_key provider cache s).source_file = s.source_file ∧
    (assignCoord h nsvc gsvc api_key provider cache s).extra = s.extra ∧
    (storeAddr s = ("") →
      (assignCoord h nsvc gsvc api_key provider cache s).latlng = s.latlng) ∧
    (¬(storeAddr s = ("")) →
      resolveAddr h nsvc gsvc api_key provider cache (storeAddr s) = none →
      (assignCoord h nsvc gsvc api_key provider cache s).latlng = s.latlng) ∧
    (∀ c, ¬(storeAddr s = ("")) →
      resolveAddr h nsvc gsvc api_key provider cache (storeAddr s) = some c →
      (assignCoord h nsvc gsvc api_key provider cache s).latlng = some c) := by
  by_cases ha : storeAddr s = ("")
  · refine ⟨by simp [assignCoord, ha], by simp [assignCoord, ha],
      by simp [assignCoord, ha], by simp [assignCoord, ha],
      by simp [assignCoord, ha], fun _ => by simp [assignCoord, ha],
      fun hc => absurd ha hc, fun c hc => absurd ha hc⟩
  · cases hr : resolveAddr h nsvc gsvc api_key provider cache (storeAddr s) with
    | none =>
      refine ⟨by simp [assignCoord, ha, hr], by simp [assignCoord, ha, hr],
        by simp [assignCoord, ha, hr], by simp [assignCoord, ha, hr],
        by simp [assignCoord, ha, hr], fun hc => absurd hc ha,
        fun _ _ => by simp [assignCoord, ha, hr], ?_⟩
      intro c _ hcon
      exact Option.noConfusion hcon
    | some c0 =>
      refine ⟨by simp [assignCoord, ha, hr], by simp [assignCoord, ha, hr],
        by simp [assignCoord, ha, hr], by simp [assignCoord, ha, hr],
        by simp [assignCoord, ha, hr], fun hc => absurd hc ha, ?_, ?_⟩
      · intro _ hcon
        exact Option.noConfusion hcon
      · intro c _ hcc
        have : c0 = c := Option.some.inj hcc
        subst this
        simp [assignCoord, ha, hr]

/-- C9: in one bulk run every provider call is for a distinct uncached unique
address — so each distinct address string is queried at most once — the final
stores are the pointwise per-record assignment (hence two records with the
same address string receive the same coordinates), and the final store list
does not depend on the completion order of the workers. -/
theorem C9_lookup_once_deterministic (h : String → String)
    (nsvc : String → Option (ℚ × ℚ)) (gsvc : String → String → Option (ℚ × ℚ))
    (api_key : Option String) (provider : String) (cache : Cache)
    (stores : List Store) (order order2 : List String)
    (hperm : order.Perm (needApi h provider cache stores))
    (hperm2 : order2.Perm (needApi h provider cache stores)) :
    (geocode_addresses h nsvc gsvc api_key provider cache stores order).calls
      = order ∧
    (geocode_addresses h nsvc gsvc api_key provider cache stores order).calls.Nodup ∧
    (∀ a ∈ (geocode_addresses h nsvc gsvc api_key provider cache stores order).calls,
      a ∈ uniqueAddrs stores ∧
        _cache_get cache (_cache_key h a provider) = none) ∧
    (geocode_addresses h nsvc gsvc api_key provider cache stores order).stores
      = stores.map (assignCoord h nsvc gsvc api_key provider cache) ∧
    (geocode_addresses h nsvc gsvc api_key provider cache stores order2).stores
      = (geocode_addresses h nsvc gsvc api_key provider cache stores order).stores := by
  obtain ⟨hs1, hc1⟩ := geocode_addresses_spec h nsvc gsvc api_key provider cache
    stores order hperm
  obtain ⟨hs2, _⟩ := geocode_addresses_spec h nsvc gsvc api_key provider cache
    stores order2 hperm2
  refine ⟨hc1, ?_, ?_, hs1, by rw [hs1, hs2]⟩
  · rw [hc1]
    exact hperm.nodup_iff.mpr (needApi_nodup h provider cache stores)
  · intro a ha
    rw [hc1] at ha
    exact (needApi_mem h provider cache stores a).mp (hperm.mem_iff.mp ha)

/-- Witness for `C9_lookup_once_deterministic` at a concrete batch: two
stores sharing one address and one store with no address. -/
theorem C9_lookup_once_deterministic_witness :
    (geocode_addresses demoId demoXsvc demoGsvc none ("nominatim") [] demoStores
        (needApi demoId ("nominatim") [] demoStores)).calls
      = needApi demoId ("nominatim") [] demoStores ∧
    (geocode_addresses demoId demoXsvc demoGsvc none ("nominatim") [] demoStores
        (needApi demoId ("nominatim") [] demoStores)).stores
      = demoStores.map (assignCoord demoId demoXsvc demoGsvc none ("nominatim") []) := by
  have hmain := C9_lookup_once_deterministic demoId demoXsvc demoGsvc none
    ("nominatim") [] demoStores (needApi demoId ("nominatim") [] demoStores)
    (needApi demoId ("nominatim") [] demoStores) (List.Perm.refl _)
    (List.Perm.refl _)
  exact ⟨hmain.1, hmain.2.2.2.1⟩

/-- C10: one bulk run returns the input list mapped pointwise — no record is
added, removed or reordered — each record keeps every field except possibly
`lat`/`lng`, coordinates are attached exactly to records whose non-empty
stripped address resolves (from cache or provider), and a record with an
empty address or a failed lookup keeps its input `lat`/`lng` (none for
records arriving without them). -/
theorem C10_frame_effect (h : String → String)
    (nsvc : String → Option (ℚ × ℚ)) (gsvc : String → String → Option (ℚ × ℚ))
    (api_key : Option String) (provider : String) (cache : Cache)
    (stores : List Store) (order : List String)
    (hperm : order.Perm (needApi h provider cache stores)) :
    (geocode_addresses h nsvc gsvc api_key provider cache stores order).stores
      = stores.map (assignCoord h nsvc gsvc api_key provider cache) ∧
    ∀ s : Store,
      (assignCoord h nsvc gsvc api_key provider cache s).name = s.name ∧
      (assignCoord h nsvc gsvc api_key provider cache s).address = s.address ∧
      (assignCoord h nsvc gsvc api_key provider cache s).company = s.company ∧
      (assignCoord h nsvc gsvc api_key provider cache s).source_file
        = s.source_file ∧
      (assignCoord h nsvc gsvc api_key provider cache s).extra = s.extra ∧
      (storeAddr s = ("") →
        (assignCoord h nsvc gsvc api_key provider cache s).latlng = s.latlng) ∧
      (¬(storeAddr s = ("")) →
        resolveAddr h nsvc gsvc api_key provider cache (storeAddr s) = none →
        (assignCoord h nsvc gsvc api_key provider cache s).latlng = s.latlng) ∧
      (∀ c, ¬(storeAddr s = ("")) →
        resolveAddr h nsvc gsvc api_key provider cache (storeAddr s) = some c →
        (assignCoord h nsvc gsvc api_key provider cache s).latlng = some c) :=
  ⟨(geocode_addresses_spec h nsvc gsvc api_key provider cache stores order
      hperm).1,
    fun s => assignCoord_frame h nsvc gsvc api_key provider cache s⟩

/-- Witness for `C10_frame_effect` at the concrete batch. -/
theorem C10_frame_effect_witness :
    (geocode_addresses demoId demoFailSvc demoGsvc none ("nominatim") [] demoStores
        (needApi demoId ("nominatim") [] demoStores)).stores
      = demoStores.map (assignCoord demoId demoFailSvc demoGsvc none ("nominatim")
          []) ∧
    (assignCoord demoId demoFailSvc demoGsvc none ("nominatim") []
        (Store.mk (some ("S3")) none none none none [])).latlng = none := by
  have hmain := C10_frame_effect demoId demoFailSvc demoGsvc none ("nominatim") []
    demoStores (needApi demoId ("nominatim") [] demoStores) (List.Perm.refl _)
  refine ⟨hmain.1, ?_⟩
  have hframe := (hmain.2 (Store.mk (some ("S3")) none none none none [])).2.2.2.2.2.1
  exact hframe (by decide)

/-- A successful prefecture match consumes a prefecture from the table. -/
theorem matchPref_spec {cs : List Char} {prr : List Char × List Char}
    (h : matchPref cs = some prr) : ∃ p ∈ _PREFS, p.toList = prr.1 := by
  unfold matchPref at h
  cases hf : _PREFS.find? (fun p => p.toList.isPrefixOf cs) with
  | none =>
    simp only [hf] at h
    exact Option.noConfusion h
  | some p =>
    simp only [hf] at h
    refine ⟨p, List.mem_of_find?_eq_some hf, ?_⟩
    rw [← Option.some.inj h]

/-- A prefecture-run match starts with a prefecture name. -/
theorem matchPrefRun_spec {cs m : List Char} (h : matchPrefRun cs = some m) :
    ∃ p ∈ _PREFS, List.IsPrefix p.toList m := by
  unfold matchPrefRun at h
  cases hf : matchPref cs with
  | none =>
    simp only [hf] at h
    exact Option.noConfusion h
  | some prr =>
    obtain ⟨pr1, pr2⟩ := prr
    simp only [hf] at h
    by_cases hrun : (pr2.takeWhile isClassA).isEmpty = true
    · rw [if_pos hrun] at h
      exact Option.noConfusion h
    · rw [if_neg hrun] at h
      obtain ⟨p, hp, he⟩ := matchPref_spec hf
      refine ⟨p, hp, ⟨pr2.takeWhile isClassA, ?_⟩⟩
      rw [he]
      exact Option.some.inj h

/-- Every `ADDRESS_RE` match contains a prefecture name. -/
theorem matchAddressAt_spec {cs m : List Char} (h : matchAddressAt cs = some m) :
    ∃ p ∈ _PREFS, p.toList <:+: m := by
  unfold matchAddressAt at h
  cases hpo : matchPostal cs with
  | none =>
    simp only [hpo] at h
    obtain ⟨p, hp, hpre⟩ := matchPrefRun_spec h
    exact ⟨p, hp, hpre.isInfix⟩
  | some po =>
    obtain ⟨po1, po2⟩ := po
    simp only [hpo] at h
    cases hpr : matchPrefRun po2 with
    | some m2 =>
      simp only [hpr] at h
      obtain ⟨p, hp, hpre⟩ := matchPrefRun_spec hpr
      obtain ⟨t, ht⟩ := hpre
      refine ⟨p, hp, po1, t, ?_⟩
      rw [List.append_assoc, ht]
      exact Option.some.inj h
    | none =>
      simp only [hpr] at h
      obtain ⟨p, hp, hpre⟩ := matchPrefRun_spec h
      exact ⟨p, hp, hpre.isInfix⟩

/-- Every `ADDRESS_RE.search` hit contains a prefecture name. -/
theorem addressSearchAux_spec :
    ∀ (cs : List Char) (idx : Nat) {k : Nat} {m : List Char},
      addressSearchAux idx cs = some (k, m) → ∃ p ∈ _PREFS, p.toList <:+: m := by
  intro cs
  induction cs with
  | nil =>
    intro idx k m h
    simp [addressSearchAux] at h
  | cons c rest ih =>
    intro idx k m h
    cases hma : matchAddressAt (c :: rest) with
    | some m2 =>
      simp only [addressSearchAux, hma] at h
      have hpq := Option.some.inj h
      have hm2 : m2 = m := congrArg Prod.snd hpq
      rw [← hm2]
      exact matchAddressAt_spec hma
    | none =>
      simp only [addressSearchAux, hma] at h
      exact ih (idx + 1) h

/-- Search form of the previous lemma. -/
theorem addressSearch_spec {cs : List Char} {k : Nat} {m : List Char}
    (h : addressSearch cs = some (k, m)) : ∃ p ∈ _PREFS, p.toList <:+: m :=
  addressSearchAux_spec cs 0 h

/-- An infix made of non-`q` characters survives a left `dropWhile q`. -/
theorem infix_dropWhile (q : Char → Bool) {p : List Char} :
    ∀ {l : List Char}, p <:+: l → p ≠ [] → (∀ c ∈ p, q c = false) →
      p <:+: l.dropWhile q := by
  intro l
  induction l with
  | nil =>
    intro hinf hne _
    rw [List.infix_nil] at hinf
    exact absurd hinf hne
  | cons a l2 ih =>
    intro hinf hne hq
    by_cases hqa : q a = true
    · rw [List.dropWhile_cons, if_pos hqa]
      rcases List.infix_cons_iff.mp hinf with hpre | hinf2
      · exfalso
        cases p with
        | nil => exact hne rfl
        | cons pc pr =>
          obtain ⟨t, ht⟩ := hpre
          simp only [List.cons_append] at ht
          injection ht with h1 _
          have hf : q pc = false := hq pc (List.mem_cons_self _ _)
          rw [h1] at hf
          rw [hf] at hqa
          exact Bool.noConfusion hqa
      · exact ih hinf2 hne hq
    · rw [List.dropWhile_cons, if_neg hqa]
      exact hinf

/-- An infix made of non-whitespace characters survives `strip()`. -/
theorem infix_pyStrip {p : List Char} {s : String}
    (hinf : p <:+: s.toList) (hne : p ≠ []) (hq : ∀ c ∈ p, isPySpace c = false) :
    p <:+: (pyStrip s).toList := by
  have h1 := infix_dropWhile isPySpace hinf hne hq
  have h2 : p.reverse <:+: (s.toList.dropWhile isPySpace).reverse :=
    List.reverse_infix.mpr h1
  have h3 := infix_dropWhile isPySpace h2 (by simpa using hne)
    (fun c hc => hq c (List.mem_reverse.mp hc))
  rw [show (s.toList.dropWhile isPySpace).reverse.dropWhile isPySpace
      = (((s.toList.dropWhile isPySpace).reverse.dropWhile isPySpace).reverse).reverse
    from (List.reverse_reverse _).symm] at h3
  exact List.reverse_infix.mp h3

/-- Prefecture names are non-empty and contain no whitespace. -/
theorem prefs_nonempty_nonspace :
    ∀ p ∈ _PREFS, p.toList ≠ [] ∧ ∀ c ∈ p.toList, isPySpace c = false := by
  decide

/-- Membership after `add_store`: either an old record or the new one, whose
stored address is the stripped address argument. -/
theorem add_store_mem {company name address : String} {stores : List Store}
    {s : Store} (h : s ∈ add_store company stores name address) :
    s ∈ stores ∨ s.address = some (pyStrip address) := by
  simp only [add_store] at h
  split at h
  · rcases List.mem_append.mp h with hm | hm
    · exact Or.inl hm
    · right
      rw [List.mem_singleton.mp hm]
  · exact Or.inl h

/-- Membership after an `add_store` whose address argument is a search hit:
either an old record, or a record whose address contains a prefecture. -/
theorem add_store_mem_pref {company name : String} {stores : List Store}
    {s : Store} {k : Nat} {m cs : List Char}
    (hsearch : addressSearch cs = some (k, m))
    (hmem : s ∈ add_store company stores name ⟨m⟩) :
    s ∈ stores ∨ ∃ p ∈ _PREFS, p.toList <:+: (s.address.getD ("")).toList := by
  rcases add_store_mem hmem with hm | haddr
  · exact Or.inl hm
  · right
    obtain ⟨p, hp, hinf⟩ := addressSearch_spec hsearch
    have hfacts := prefs_nonempty_nonspace p hp
    refine ⟨p, hp, ?_⟩
    rw [haddr]
    simp only [Option.getD_some]
    exact infix_pyStrip hinf hfacts.1 hfacts.2

/-- Membership after the pattern-1 scan. -/
theorem pat1Scan_mem {company : String} {stores : List Store} :
    ∀ (parts : List (List Char)) {s : Store},
      s ∈ pat1Scan company stores parts →
      s ∈ stores ∨ ∃ p ∈ _PREFS, p.toList <:+: (s.address.getD ("")).toList := by
  intro parts
  induction parts with
  | nil =>
    intro s hs
    simp only [pat1Scan] at hs
    exact Or.inl hs
  | cons p0 rest ih =>
    intro s hs
    cases rest with
    | nil =>
      simp only [pat1Scan] at hs
      exact Or.inl hs
    | cons p1 ps =>
      cases hsearch : addressSearch p1 with
      | some km =>
        obtain ⟨k, m⟩ := km
        simp only [pat1Scan, hsearch] at hs
        exact add_store_mem_pref hsearch hs
      | none =>
        simp only [pat1Scan, hsearch] at hs
        exact ih hs


/-- Membership after pattern 1. -/
theorem pat1Stores_mem {company line : String} {stores : List Store} {s : Store}
    (h : s ∈ pat1Stores company stores line) :
    s ∈ stores ∨ ∃ p ∈ _PREFS, p.toList <:+: (s.address.getD ("")).toList := by
  simp only [pat1Stores] at h
  split at h
  · exact pat1Scan_mem _ h
  · exact Or.inl h

/-- Membership after pattern 2 (the matched group is a search hit). -/
theorem pat2Stores_mem {company line : String} {prevOpt : Option String}
    {st : Nat} {m : List Char} {stores1 : List Store} {s : Store}
    (hsearch : addressSearch line.toList = some (st, m))
    (h : s ∈ pat2Stores company prevOpt line st m stores1) :
    s ∈ stores1 ∨ ∃ p ∈ _PREFS, p.toList <:+: (s.address.getD ("")).toList := by
  simp only [pat2Stores] at h
  split at h
  · exact add_store_mem_pref hsearch h
  · cases prevOpt with
    | some prevRaw =>
      dsimp only at h
      split at h
      · exact add_store_mem_pref hsearch h
      · exact Or.inl h
    | none => exact Or.inl h

/-- Membership after pattern 3. -/
theorem pat3Stores_mem {company line : String} {prevOpt : Option String}
    {rest : List String} {stores1 : List Store} {s : Store}
    (h : s ∈ pat3Stores company prevOpt line rest stores1) :
    s ∈ stores1 ∨ ∃ p ∈ _PREFS, p.toList <:+: (s.address.getD ("")).toList := by
  simp only [pat3Stores] at h
  split at h
  · cases rest with
    | nil => exact Or.inl h
    | cons next rtail =>
      cases hsearch2 : addressSearch (line.toList ++ (pyStrip next).toList) with
      | some km2 =>
        obtain ⟨k2, m2⟩ := km2
        simp only [hsearch2] at h
        exact add_store_mem_pref hsearch2 h
      | none =>
        simp only [hsearch2] at h
        exact Or.inl h
  · exact Or.inl h

/-- Every record the parse loop adds has an address containing a prefecture
name (all three patterns take their address from an `ADDRESS_RE` match). -/
theorem parseLoop_mem (company : String) :
    ∀ (lines : List String) (prevOpt : Option String) (stores : List Store)
      {s : Store}, s ∈ parseLoop company prevOpt lines stores →
      s ∈ stores ∨ ∃ p ∈ _PREFS, p.toList <:+: (s.address.getD ("")).toList := by
  intro lines
  induction lines with
  | nil =>
    intro prevOpt stores s hs
    simp only [parseLoop] at hs
    exact Or.inl hs
  | cons lineRaw rest ih =>
    intro prevOpt stores s hs
    cases hsearch : addressSearch (pyStrip lineRaw).toList with
    | some km =>
      obtain ⟨st, m⟩ := km
      simp only [parseLoop, hsearch] at hs
      rcases ih (some lineRaw) _ hs with hmem | hP
      · rcases pat2Stores_mem hsearch hmem with h1 | hP2
        · exact pat1Stores_mem h1
        · exact Or.inr hP2
      · exact Or.inr hP
    | none =>
      simp only [parseLoop, hsearch] at hs
      rcases ih (some lineRaw) _ hs with hmem | hP
      · rcases pat3Stores_mem hmem with h1 | hP2
        · exact pat1Stores_mem h1
        · exact Or.inr hP2
      · exact Or.inr hP

/-- C3, counterexample: a prefecture-only header line followed by three
name-and-phone store lines produces no records at all — not three records
assigned that prefecture.  `_parse_stores` has no section-header state and no
phone-number anchoring; the three store lines contain no prefecture-anchored
address, so nothing is extracted. -/
theorem C3_counterexample :
    _parse_stores demoHeaderText ("デモ社") = [] ∧
    ¬((_parse_stores demoHeaderText ("デモ社")).length = 3) := by
  refine ⟨by decide, by decide⟩

/-- C3, amended: a prefecture name alone on a line is not a section header —
the parser keeps no prefecture context and emits no prefecture field, so a
header line followed by three phone-anchored store lines yields zero
records; instead, each record's own address carries a prefecture name,
because every pattern takes its address from the prefecture-anchored address
regex. -/
theorem C3_no_section_header_amended :
    (_parse_stores demoHeaderText ("デモ社")).length = 0 ∧
    (∀ text company : String, ∀ s ∈ _parse_stores text company,
      ∃ p ∈ _PREFS, p.toList <:+: (s.address.getD ("")).toList) := by
  constructor
  · decide
  · intro text company s hs
    rcases parseLoop_mem company _ none [] hs with hmem | hP
    · exact absurd hmem (List.not_mem_nil s)
    · exact hP

/-- Witness for `C3_no_section_header_amended` at a concrete line that does
produce a record: its address contains the prefecture 東京. -/
theorem C3_no_section_header_amended_witness :
    demoStoreRec ∈ _parse_stores demoStoreLine ("デモ社") ∧
    (∃ p ∈ _PREFS, p.toList <:+: ((demoStoreRec.address.getD ("")).toList)) := by
  refine ⟨by decide, ?_⟩
  exact C3_no_section_header_amended.2 demoStoreLine ("デモ社") demoStoreRec
    (by decide)
